import Mathlib

/-!
# Verification of the elite_editor polygon editor (src/editor.js)

Shallow embedding of the multi-layer polygon editor core from `src/editor.js`
(plus the `SHIP_DEFINITIONS` catalog shape from `src/index.html`).

Modelling conventions:
* JavaScript numbers are modelled as exact rationals (`ℚ`).  The editor's
  logic is branch- and index-oriented; no claim here depends on binary
  floating-point rounding.
* Live shapes (the `shapes` array while editing) are modelled by the typed
  structure `Shape`; JS defensive checks that are vacuous for typed data
  (`Array.isArray(shape.vertexData)`, `typeof v.x !== 'number'`, `isNaN`)
  are noted in comments where they are dropped.
* History entries (and the inputs of `isPointInPolygon`, which the source
  guards field-by-field) are modelled "raw": every field that JS could find
  missing, non-numeric or NaN is an `Option`, with `none` standing for any
  non-(finite-)number value.  JSON round-tripping used by the source for
  deep copies is the identity on these values, so a deep copy is modelled
  by the value itself (Lean values have value semantics).
* `historyStack` is kept most-recent-first (JS pushes at the array's end
  and pops from the end; `shift`, which evicts the oldest, becomes
  `dropLast` here).
* DOM-only calls (`console.*`, color-picker updates, button
  enabling/disabling) have no model effect, except the one real state
  write inside `updateUIControls` (`addingVertexMode = false` when no
  editable shape is selected), which is transcribed.
-/

namespace EliteEditor

/-- A vertex of a live (well-typed) shape layer, in shape-relative
coordinates.  `src/editor.js` `{x, y}` objects. -/
structure Vertex where
  x : ℚ
  y : ℚ
  deriving DecidableEq

/-- A live shape layer: `{ vertexData, fillColor, strokeColor, strokeW }`
(`src/editor.js` line 26).  Color arrays keep their JS representation as
lists so that the length-3 validation in `saveStateForUndo` stays a real
check. -/
structure Shape where
  vertexData : List Vertex
  fillColor : List ℚ
  strokeColor : List ℚ
  strokeW : ℚ
  deriving DecidableEq

/-- A raw vertex as found in a history snapshot or handed to
`isPointInPolygon`: `none` models a coordinate that is missing,
non-numeric, or NaN (the source tests `typeof v?.x !== 'number'` and
`isNaN`). -/
structure RawVertex where
  x : Option ℚ
  y : Option ℚ
  deriving DecidableEq

/-- A raw shape as found in a history snapshot.  `none` on a field models
a missing / non-array / non-numeric value. -/
structure RawShape where
  vertexData : Option (List RawVertex)
  fillColor : Option (List (Option ℚ))
  strokeColor : Option (List (Option ℚ))
  strokeW : Option ℚ
  deriving DecidableEq

/-- One undo-history entry: the snapshot of the whole shape set.
`none` models a snapshot that is not an array at all; an inner `none`
models a null/undefined element of the array. -/
abbrev HistEntry := Option (List (Option RawShape))

/-- A catalog entry from `SHIP_DEFINITIONS` (src/index.html): only the
fields the editor core reads.  `fillColor`/`strokeColor`/`strokeW` are
optional (the Thargoid entry omits them); `vertexData` is present on every
entry (empty for the Thargoid). -/
structure ShipDef where
  name : String
  size : ℚ
  vertexData : List Vertex
  fillColor : Option (List ℚ)
  strokeColor : Option (List ℚ)
  strokeW : Option ℚ
  deriving DecidableEq

/-- Axis lock for shift-constrained dragging (`dragConstrainedAxis`:
`'x'`, `'y'` or `null`). -/
inductive Axis where
  | x
  | y
  deriving DecidableEq

/-- The editor's global mutable state (src/editor.js lines 24-65), plus
the read-only catalog (`SHIP_DEFINITIONS`) so that frame properties about
it can be stated.  `maxDefinedShipSize` is the value computed once in
`setup()`; `baseDisplaySize` is the zoom state. -/
structure EditorState where
  shapes : List Shape
  historyStack : List HistEntry
  selectedShapeIndex : Int
  selectedVertexIndices : List Nat
  draggingVertex : Bool
  draggingShape : Bool
  addingVertexMode : Bool
  dragOccurred : Bool
  dragVertexStartX : ℚ
  dragVertexStartY : ℚ
  dragVertexInitialPositions : List (Nat × ℚ × ℚ)
  dragShapeStartX : ℚ
  dragShapeStartY : ℚ
  dragConstrainedAxis : Option Axis
  currentShipKey : Option String
  currentShipDef : Option ShipDef
  baseDisplaySize : ℚ
  maxDefinedShipSize : ℚ
  shipDefs : List (String × ShipDef)
  deriving DecidableEq

/-! ## Constants (src/editor.js lines 30-49) -/

def canvasW : ℚ := 600
def canvasH : ℚ := 450
def maxHistorySize : Nat := 30
def grabRadius : ℚ := 10
def edgeClickMinDist : ℚ := 15
def straightenThreshold : ℚ := 1/5
def blankKey : String := "--- New Blank ---"

/-! ## Geometry utilities (src/editor.js lines 843-878) -/

/-- `distSq(x1, y1, x2, y2)` (line 876): squared Euclidean distance. -/
def distSq (x1 y1 x2 y2 : ℚ) : ℚ :=
  let dx := x1 - x2
  let dy := y1 - y2
  dx * dx + dy * dy

/-- `distSqToSegment(px, py, x1, y1, x2, y2)` (line 868): squared distance
from a point to a segment, via the clamped projection parameter. -/
def distSqToSegment (px py x1 y1 x2 y2 : ℚ) : ℚ :=
  let l2 := distSq x1 y1 x2 y2
  if l2 = 0 then distSq px py x1 y1
  else
    let t := ((px - x1) * (x2 - x1) + (py - y1) * (y2 - y1)) / l2
    let t := max 0 (min 1 t)
    let projX := x1 + t * (x2 - x1)
    let projY := y1 + t * (y2 - y1)
    distSq px py projX projY

/-- Does this raw vertex fail the source's per-edge well-formedness test
`typeof v?.x !== 'number' || typeof v?.y !== 'number'`? -/
def RawVertex.malformed (v : RawVertex) : Bool :=
  v.x.isNone || v.y.isNone

/-- One iteration of the `isPointInPolygon` loop body: edge from vertex
`j` (previous) to vertex `i`, skipped when either endpoint is malformed
(the `continue` on line 849). -/
def pipStep (px py : ℚ) (poly : List RawVertex) (inside : Bool) (i : Nat) : Bool :=
  match poly.getD i ⟨none, none⟩,
      poly.getD ((i + poly.length - 1) % poly.length) ⟨none, none⟩ with
  | ⟨some xi, some yi⟩, ⟨some xj, some yj⟩ =>
    if (decide (yi > py) != decide (yj > py))
        && decide (px < (xj - xi) * (py - yi) / (yj - yi) + xi)
    then !inside else inside
  | _, _ => inside

/-- `isPointInPolygon(px, py, polygonVertices)` (line 844): ray-crossing
test; the loop runs `i` from `0` to `n-1` with `j` the previous index
(starting at `n-1`), which is `(i + n - 1) % n`. -/
def isPointInPolygon (px py : ℚ) (poly : List RawVertex) : Bool :=
  if poly.length < 3 then false
  else (List.range poly.length).foldl (pipStep px py poly) false

/-- Injection of a live (typed) vertex into the raw representation: live
coordinates are genuine numbers. -/
def Vertex.toRaw (v : Vertex) : RawVertex := ⟨some v.x, some v.y⟩

/-- `isPointInPolygon` applied to a live vertex list (as done by
`mousePressed`, line 483). -/
def isPointInPolygonV (px py : ℚ) (poly : List Vertex) : Bool :=
  isPointInPolygon px py (poly.map Vertex.toRaw)

/-- `findClosestEdgeRelative(shape, mx, my)` (line 855) on a live vertex
list: index of the edge `(i, (i+1) % n)` with minimal squared distance to
the query point (strict `<`, so the first minimum wins), with that
distance; `none` for fewer than 2 vertices.  The per-edge
`typeof ... !== 'number'` skip is vacuous on typed vertices. -/
def closestEdgeStep (vd : List Vertex) (mx my : ℚ) (acc : Option (Nat × ℚ)) (i : Nat) :
    Option (Nat × ℚ) :=
  let v1 := vd.getD i ⟨0, 0⟩
  let v2 := vd.getD ((i + 1) % vd.length) ⟨0, 0⟩
  let d := distSqToSegment mx my v1.x v1.y v2.x v2.y
  match acc with
  | none => some (i, d)
  | some (bi, bd) => if d < bd then some (i, d) else some (bi, bd)

def findClosestEdgeRelative (vd : List Vertex) (mx my : ℚ) : Option (Nat × ℚ) :=
  if vd.length < 2 then none
  else (List.range vd.length).foldl (closestEdgeStep vd mx my) none

/-! ## State access helpers -/

/-- JS `shapes[i]` with an `Int` index: `undefined` (`none`) when out of
range or negative. -/
def shapeAt (shs : List Shape) (i : Int) : Option Shape :=
  if 0 ≤ i then shs.get? i.toNat else none

/-- In-place update of `shapes[i]` (the JS handlers mutate the shape object
found at the selected index). -/
def updateShapeAt (shs : List Shape) (i : Int) (f : Shape → Shape) : List Shape :=
  if 0 ≤ i then
    match shs.get? i.toNat with
    | some sh => shs.set i.toNat (f sh)
    | none => shs
  else shs

/-- `isThargoidSelected()` (line 388). -/
def isThargoidSelected (s : EditorState) : Bool :=
  s.currentShipKey == some "Thargoid"
    && (match s.currentShipDef with
        | some d => d.name == "Thargoid Interceptor"
        | none => false)

/-- `isEditable()` (line 392).  JS string truthiness: the empty string is
falsy. -/
def isEditable (s : EditorState) : Bool :=
  s.currentShipKey == some blankKey
    || (match s.currentShipKey with
        | none => false
        | some k =>
          !(k == "") && !(k == "Select a Ship...")
            && s.currentShipDef.isSome && !(isThargoidSelected s))

/-- `pixelsPerUnit` as maintained by `calculateScale()` (line 229); it is
recomputed from `baseDisplaySize` after every zoom change, so it is modelled
as a derived value. -/
def pixelsPerUnit (s : EditorState) : ℚ :=
  s.baseDisplaySize / s.maxDefinedShipSize

/-- `actualDrawSize_s` as computed identically in `draw()`, `mousePressed()`
and `mouseDragged()` (lines 404-406): `(currentShipDef.size || 1) *
pixelsPerUnit`, or the blank-ship fallback. -/
def actualDrawSize (s : EditorState) : ℚ :=
  match s.currentShipDef with
  | some d => (if d.size = 0 then 1 else d.size) * pixelsPerUnit s
  | none =>
    if decide (s.shapes.length > 0) && (s.currentShipKey == some blankKey)
    then s.baseDisplaySize * (50 / s.maxDefinedShipSize)
    else 0

/-- `interaction_r` (line 407): half the draw size, with a fallback radius
when the draw size is not positive. -/
def interactionR (s : EditorState) : ℚ :=
  let a := actualDrawSize s
  if a > 0 then a / 2 else s.baseDisplaySize / (s.maxDefinedShipSize * 2)

/-- The one model-visible effect of `updateUIControls()` (lines 629 and
634): when no editable shape is selected, `addingVertexMode` is forced
off.  `shapeSelected` is computed as on line 613. -/
def updateUIControls (s : EditorState) : EditorState :=
  if decide (s.selectedShapeIndex ≠ -1) && isEditable s
      && (shapeAt s.shapes s.selectedShapeIndex).isSome
  then s else {s with addingVertexMode := false}

/-! ## Undo history (src/editor.js lines 124-226) -/

/-- The structural pre-save validation of `saveStateForUndo` (lines
127-142) on a typed live shape.  The `Array.isArray(vertexData)`,
`typeof strokeW`, per-vertex `typeof`/`isNaN` and color `isNaN` checks are
vacuous on typed data; the color length-3 checks remain. -/
def validLiveShape (sh : Shape) : Bool :=
  sh.fillColor.length == 3 && sh.strokeColor.length == 3

/-- Pre-save validation over the whole shape set. -/
def validLiveShapes (shs : List Shape) : Bool :=
  shs.all validLiveShape

/-- Injection of a live shape into the raw snapshot representation (the
JSON deep copy of line 144 preserves exactly these fields). -/
def Shape.toRaw (sh : Shape) : RawShape :=
  ⟨some (sh.vertexData.map Vertex.toRaw),
   some (sh.fillColor.map some),
   some (sh.strokeColor.map some),
   some sh.strokeW⟩

/-- The history entry pushed for a live shape set. -/
def mkEntry (shs : List Shape) : HistEntry :=
  some (shs.map (fun sh => some sh.toRaw))

/-- The per-shape restore validation of `undoLastChange` (lines 176-195):
shape non-null, `vertexData`/`fillColor`/`strokeColor` arrays, colors of
length 3, `strokeW` a number, every vertex coordinate a non-NaN number, no
NaN in the colors. -/
def validRawShape (o : Option RawShape) : Bool :=
  match o with
  | none => false
  | some sh =>
    match sh.vertexData, sh.fillColor, sh.strokeColor, sh.strokeW with
    | some vd, some fc, some sc, some _ =>
      fc.length == 3 && sc.length == 3
        && vd.all (fun v => v.x.isSome && v.y.isSome)
        && fc.all Option.isSome && sc.all Option.isSome
    | _, _, _, _ => false

/-- The whole-entry restore validation (lines 172-197): the popped state
must be an array and every element a valid shape. -/
def validEntry (e : HistEntry) : Bool :=
  match e with
  | none => false
  | some lst => lst.all validRawShape

/-- Reading a validated snapshot back into live shapes (`shapes =
restoredShapes`, line 207).  The defaults are never used on entries that
passed `validEntry`. -/
def RawVertex.toVertex (v : RawVertex) : Vertex :=
  ⟨v.x.getD 0, v.y.getD 0⟩

def RawShape.toShape (sh : RawShape) : Shape :=
  ⟨(sh.vertexData.getD []).map RawVertex.toVertex,
   (sh.fillColor.getD []).map (fun c => c.getD 0),
   (sh.strokeColor.getD []).map (fun c => c.getD 0),
   sh.strokeW.getD 0⟩

def entryShapes (e : HistEntry) : List Shape :=
  (e.getD []).map (fun o => (o.getD ⟨none, none, none, none⟩).toShape)

/-- `historyStack.push` followed by the size cap (lines 147-152): evict
the oldest entry (`shift`; here `dropLast`, newest-first) when the stack
exceeds `maxHistorySize`. -/
def pushHistory (e : HistEntry) (hs : List HistEntry) : List HistEntry :=
  let h := e :: hs
  if h.length > maxHistorySize then h.dropLast else h

/-- `saveStateForUndo()` (lines 124-159): validate the live shape set; on
failure return without touching the stack (fails open); on success push a
deep snapshot, cap the stack, and run `updateUIControls`.  The
`try`/`catch` is unreachable in the model (JSON round-trips cannot throw
on these values). -/
def saveStateForUndo (s : EditorState) : EditorState :=
  if validLiveShapes s.shapes then
    updateUIControls {s with historyStack := pushHistory (mkEntry s.shapes) s.historyStack}
  else s

/-- `undoLastChange()` (lines 161-226): nothing to undo on an empty stack;
otherwise pop, validate, and either restore the shapes and reset all
selection/interaction state, or (invalid snapshot) clear the whole stack
and abort, leaving the shape set untouched. -/
def undoLastChange (s : EditorState) : EditorState :=
  match s.historyStack with
  | [] => s
  | e :: rest =>
    if validEntry e then
      updateUIControls
        {s with shapes := entryShapes e, historyStack := rest,
                selectedShapeIndex := -1, selectedVertexIndices := [],
                addingVertexMode := false, draggingVertex := false,
                draggingShape := false, dragOccurred := false}
    else
      updateUIControls {s with historyStack := []}

/-! ## Mouse press (src/editor.js lines 397-509) -/

/-- The flag resets at the top of `mousePressed` (lines 401 and 412-413). -/
def resetPress (s : EditorState) : EditorState :=
  {s with dragOccurred := false, draggingVertex := false, draggingShape := false,
          dragVertexInitialPositions := [], dragConstrainedAxis := none}

/-- Section 1 of `mousePressed` (lines 415-437): add-vertex mode.  Find the
closest edge in relative coordinates, accept if its screen-space squared
distance is under `edgeClickMinDist ** 2`, snapshot, splice the edge
midpoint in immediately after the lower edge index, clear the vertex
selection.  The `typeof v1?.x` guard of line 430 is vacuous on typed
shapes. -/
def addVertexTarget (s : EditorState) (r mxRel myRel mxS myS : ℚ) : Option (Shape × Nat) :=
  if decide (s.selectedShapeIndex ≠ -1) then
    match shapeAt s.shapes s.selectedShapeIndex with
    | some sh =>
      match findClosestEdgeRelative sh.vertexData mxS myS with
      | some (ei, _) =>
        let n := sh.vertexData.length
        let v1 := sh.vertexData.getD ei ⟨0, 0⟩
        let v2 := sh.vertexData.getD ((ei + 1) % n) ⟨0, 0⟩
        let screenD := distSqToSegment mxRel myRel (v1.x * r) (v1.y * r) (v2.x * r) (v2.y * r)
        if screenD < edgeClickMinDist ^ 2 then some (sh, ei) else none
      | none => none
    | none => none
  else none

def addVertexPress (s : EditorState) (r mxRel myRel mxS myS : ℚ) : EditorState :=
  let s' :=
    match addVertexTarget s r mxRel myRel mxS myS with
    | some (sh, ei) =>
      let s1 := saveStateForUndo s
      let v1 := sh.vertexData.getD ei ⟨0, 0⟩
      let v2 := sh.vertexData.getD ((ei + 1) % sh.vertexData.length) ⟨0, 0⟩
      let newV : Vertex := ⟨(v1.x + v2.x) / 2, (v1.y + v2.y) / 2⟩
      let newShapes := updateShapeAt s1.shapes s.selectedShapeIndex
        (fun sh0 => {sh0 with vertexData := sh0.vertexData.insertIdx (ei + 1) newV})
      {s1 with shapes := newShapes, selectedVertexIndices := [], draggingVertex := false}
    | none => s
  updateUIControls s'

/-- Section 2 of `mousePressed` (lines 439-451): the vertex-handle search.
First vertex of the selected layer within `grabRadius` pixels wins.  The
empty-array case needs no `vertexData` truthiness distinction (an empty JS
array is truthy). -/
def clickedVertexHandleIdx (s : EditorState) (r mxRel myRel : ℚ) : Option Nat :=
  if isEditable s && decide (s.selectedShapeIndex ≠ -1)
      && (shapeAt s.shapes s.selectedShapeIndex).isSome && decide (r > 0) then
    match shapeAt s.shapes s.selectedShapeIndex with
    | some sh =>
      sh.vertexData.findIdx? (fun v => decide (distSq mxRel myRel (v.x * r) (v.y * r) < grabRadius ^ 2))
    | none => none
  else none

/-- The handle-hit action of `mousePressed` (lines 454-476): shift toggles
the index in the multi-select (a pure selection change); otherwise the
selection is collapsed to the hit vertex unless already selected, a
snapshot is taken, and a vertex drag starts recording the pre-drag
positions of every selected vertex. -/
def vertexHandleAction (s : EditorState) (shiftDown : Bool) (mxRel myRel : ℚ) (i : Nat) :
    EditorState :=
  let s' :=
    if shiftDown then
      if s.selectedVertexIndices.contains i then
        {s with selectedVertexIndices := s.selectedVertexIndices.erase i}
      else
        {s with selectedVertexIndices := s.selectedVertexIndices ++ [i]}
    else
      let sel := if s.selectedVertexIndices.contains i then s.selectedVertexIndices else [i]
      let s1 := saveStateForUndo {s with selectedVertexIndices := sel}
      let initPos :=
        match shapeAt s1.shapes s1.selectedShapeIndex with
        | some sh =>
          sel.filterMap (fun idx => (sh.vertexData.get? idx).map (fun v => (idx, v.x, v.y)))
        | none => []
      {s1 with draggingVertex := true,
               dragVertexStartX := mxRel, dragVertexStartY := myRel,
               dragVertexInitialPositions := initPos, draggingShape := false}
  updateUIControls s'

/-- Section 3 of `mousePressed` (lines 479-508): the top-down layer
hit-test (first layer with at least 3 vertices containing the point) and
the resulting select / start-layer-drag / deselect action. -/
def layerHitIdx (shs : List Shape) (mxS myS : ℚ) : Option Nat :=
  shs.findIdx? (fun sh =>
    decide (sh.vertexData.length ≥ 3) && isPointInPolygonV mxS myS sh.vertexData)

def shapeClickAction (s : EditorState) (mx my mxS myS : ℚ) : EditorState :=
  let clicked := layerHitIdx s.shapes mxS myS
  let s' :=
    match clicked with
    | some ci =>
      if (ci : Int) == s.selectedShapeIndex && isEditable s then
        let s1 := saveStateForUndo s
        {s1 with draggingShape := true, dragShapeStartX := mx, dragShapeStartY := my,
                 selectedVertexIndices := []}
      else if !((ci : Int) == s.selectedShapeIndex) && isEditable s then
        {s with selectedShapeIndex := (ci : Int), selectedVertexIndices := [],
                draggingShape := false}
      else s
    | none =>
      if decide (s.selectedShapeIndex ≠ -1) then
        {s with selectedShapeIndex := -1, selectedVertexIndices := [],
                draggingShape := false}
      else {s with draggingShape := false}
  updateUIControls s'

/-- The guard of line 399: click outside the canvas, or the Thargoid is
displayed. -/
def pressBlocked (mx my : ℚ) (s : EditorState) : Bool :=
  decide (mx < 0) || decide (mx > canvasW) || decide (my < 0) || decide (my > canvasH)
    || isThargoidSelected s

/-- The add-vertex-mode interception condition of line 416. -/
def addModeConsumes (s : EditorState) (r : ℚ) : Bool :=
  s.addingVertexMode && isEditable s && decide (r > 0)

/-- `mousePressed()` (lines 397-509).  `shiftDown` is `keyIsDown(SHIFT)`. -/
def mousePressed (mx my : ℚ) (shiftDown : Bool) (s0 : EditorState) : EditorState :=
  if pressBlocked mx my s0 then s0
  else
    let s := resetPress s0
    let r := interactionR s0
    let mxRel := mx - canvasW / 2
    let myRel := my - canvasH / 2
    let mxS := mxRel / r
    let myS := myRel / r
    if addModeConsumes s r then
      addVertexPress s r mxRel myRel mxS myS
    else
      match clickedVertexHandleIdx s r mxRel myRel with
      | some i => vertexHandleAction s shiftDown mxRel myRel i
      | none => shapeClickAction s mx my mxS myS

/-! ## Mouse drag / release (src/editor.js lines 511-577) -/

/-- The multi-vertex-drag body of `mouseDragged` (lines 530-547):
axis-constrain the cumulative screen delta, convert to relative units,
reposition every recorded vertex from its pre-drag position. -/
def dragVerticesMove (s : EditorState) (r mx my : ℚ) (shiftDown : Bool) : EditorState :=
  let curMxRel := mx - canvasW / 2
  let curMyRel := my - canvasH / 2
  let dX0 := curMxRel - s.dragVertexStartX
  let dY0 := curMyRel - s.dragVertexStartY
  let axis :=
    if shiftDown then
      if s.dragConstrainedAxis.isNone && (decide (|dX0| > 5) || decide (|dY0| > 5)) then
        some (if |dX0| > |dY0| then Axis.x else Axis.y)
      else s.dragConstrainedAxis
    else none
  let dX := if axis == some Axis.y then 0 else dX0
  let dY := if axis == some Axis.x then 0 else dY0
  let dRelX := dX / r
  let dRelY := dY / r
  let moveVd := fun (vd : List Vertex) (p : Nat × ℚ × ℚ) =>
    if p.1 < vd.length then vd.set p.1 ⟨p.2.1 + dRelX, p.2.2 + dRelY⟩ else vd
  let upd := fun (sh : Shape) =>
    {sh with vertexData := s.dragVertexInitialPositions.foldl moveVd sh.vertexData}
  {s with dragConstrainedAxis := axis,
          shapes := updateShapeAt s.shapes s.selectedShapeIndex upd}

/-- The layer-drag body of `mouseDragged` (lines 549-565): frame-delta
translation of every vertex, with the same shift axis lock keyed on total
displacement from the press point. -/
def dragShapeMove (s : EditorState) (r mx my pmx pmy : ℚ) (shiftDown : Bool) : EditorState :=
  let dx0 := mx - pmx
  let dy0 := my - pmy
  let axis :=
    if shiftDown then
      if s.dragConstrainedAxis.isNone
          && decide (distSq mx my s.dragShapeStartX s.dragShapeStartY > 25) then
        let tdx := mx - s.dragShapeStartX
        let tdy := my - s.dragShapeStartY
        some (if |tdx| > |tdy| then Axis.x else Axis.y)
      else s.dragConstrainedAxis
    else none
  let dx := if axis == some Axis.y then 0 else dx0
  let dy := if axis == some Axis.x then 0 else dy0
  let dRelX := dx / r
  let dRelY := dy / r
  {s with dragConstrainedAxis := axis,
          shapes := updateShapeAt s.shapes s.selectedShapeIndex (fun sh =>
            {sh with vertexData := sh.vertexData.map (fun v => ⟨v.x + dRelX, v.y + dRelY⟩)})}

/-- The `dragOccurred` update at the top of `mouseDragged` (lines
516-521). -/
def dragOccurredUpdate (mx my : ℚ) (s : EditorState) : EditorState :=
  if !s.dragOccurred then
    if (if s.draggingVertex then
          decide (distSq (mx - canvasW / 2) (my - canvasH / 2)
            s.dragVertexStartX s.dragVertexStartY > 4)
        else if s.draggingShape then
          decide (distSq mx my s.dragShapeStartX s.dragShapeStartY > 4)
        else false)
    then {s with dragOccurred := true} else s
  else s

/-- The branch dispatch of `mouseDragged` (lines 523-565), operating on
the state after the `dragOccurred` update. -/
def mouseDraggedCore (mx my pmx pmy : ℚ) (shiftDown : Bool) (s : EditorState) : EditorState :=
  if s.draggingVertex && decide (s.selectedShapeIndex ≠ -1)
      && (shapeAt s.shapes s.selectedShapeIndex).isSome && isEditable s then
    dragVerticesMove s (interactionR s) mx my shiftDown
  else if s.draggingShape && decide (s.selectedShapeIndex ≠ -1)
      && (shapeAt s.shapes s.selectedShapeIndex).isSome && isEditable s then
    dragShapeMove s (interactionR s) mx my pmx pmy shiftDown
  else s

/-- `mouseDragged()` (lines 511-566).  `pmx`/`pmy` are p5's previous-frame
mouse position. -/
def mouseDragged (mx my pmx pmy : ℚ) (shiftDown : Bool) (s0 : EditorState) : EditorState :=
  if isThargoidSelected s0 || (!s0.draggingVertex && !s0.draggingShape) then s0
  else mouseDraggedCore mx my pmx pmy shiftDown (dragOccurredUpdate mx my s0)

/-- `mouseReleased()` (lines 568-577): reset all drag bookkeeping; the
snapshot was already taken at press time. -/
def mouseReleased (s : EditorState) : EditorState :=
  {s with draggingVertex := false, draggingShape := false,
          dragVertexInitialPositions := [], dragConstrainedAxis := none,
          dragOccurred := false}

/-! ## Keyboard (src/editor.js lines 579-608) -/

def keyDelete : Nat := 46
def keyBackspace : Nat := 8

/-- JS `array.splice(i, 1)` on the shapes list. -/
def removeAt (shs : List Shape) (i : Int) : List Shape :=
  if 0 ≤ i then shs.eraseIdx i.toNat else shs

/-- The delete-selected-vertices body (lines 584-592): compute the count
that would remain, and only when it stays at least 3, snapshot and filter
out exactly the selected indices, then clear the vertex selection; a
rejected deletion changes nothing. -/
def deleteSelectedVertices (s : EditorState) : EditorState :=
  match shapeAt s.shapes s.selectedShapeIndex with
  | some sh =>
    let remaining : Int := (sh.vertexData.length : Int) - (s.selectedVertexIndices.length : Int)
    if remaining ≥ 3 then
      let s1 := saveStateForUndo s
      {s1 with
        shapes := updateShapeAt s1.shapes s1.selectedShapeIndex (fun sh0 =>
          {sh0 with vertexData :=
            (sh0.vertexData.enum.filter
              (fun p => !(s.selectedVertexIndices.contains p.1))).map (fun p => p.2)}),
        selectedVertexIndices := [], draggingVertex := false}
    else s
  | none => s

/-- `keyPressed()` (lines 579-608).  `isZ` is `key === 'z'`; `ctrlCmdDown`
is `keyIsDown(CONTROL) || keyIsDown(COMMAND)`. -/
def keyPressed (code : Nat) (isZ : Bool) (shiftDown ctrlCmdDown : Bool) (s : EditorState) :
    EditorState :=
  if isThargoidSelected s then s
  else if (code == keyDelete || code == keyBackspace) && !shiftDown
      && decide (s.selectedShapeIndex ≠ -1) && decide (s.selectedVertexIndices.length > 0)
      && isEditable s then
    deleteSelectedVertices s
  else if (code == keyDelete || code == keyBackspace) && shiftDown
      && decide (s.selectedShapeIndex ≠ -1) && isEditable s then
    if decide ((s.shapes.length : Int) > s.selectedShapeIndex)
        && decide (s.selectedShapeIndex ≥ 0) then
      let s1 := saveStateForUndo s
      updateUIControls
        {s1 with shapes := removeAt s1.shapes s1.selectedShapeIndex,
                 selectedShapeIndex := -1, selectedVertexIndices := [],
                 draggingVertex := false, draggingShape := false}
    else s
  else if isZ && ctrlCmdDown then undoLastChange s
  else s

/-! ## Instant actions (src/editor.js lines 663-717) -/

/-- `updateSelectedShapeFill()` (line 663); `rgb` is the channel triple
extracted from the picker by p5's `color`/`red`/`green`/`blue`. -/
def updateSelectedShapeFill (rgb : List ℚ) (s : EditorState) : EditorState :=
  if decide (s.selectedShapeIndex ≠ -1) && (shapeAt s.shapes s.selectedShapeIndex).isSome
      && isEditable s then
    let s1 := saveStateForUndo s
    let newShapes := updateShapeAt s1.shapes s1.selectedShapeIndex
      (fun sh => {sh with fillColor := rgb})
    {s1 with shapes := newShapes}
  else s

/-- `updateSelectedShapeStroke()` (line 670). -/
def updateSelectedShapeStroke (rgb : List ℚ) (s : EditorState) : EditorState :=
  if decide (s.selectedShapeIndex ≠ -1) && (shapeAt s.shapes s.selectedShapeIndex).isSome
      && isEditable s then
    let s1 := saveStateForUndo s
    let newShapes := updateShapeAt s1.shapes s1.selectedShapeIndex
      (fun sh => {sh with strokeColor := rgb})
    {s1 with shapes := newShapes}
  else s

/-- `updateSelectedShapeStrokeWeight()` (line 677); `w` is the parsed
input, `none` for an unparsable value, so `w.getD 0` is
`parseFloat(...) || 0`. -/
def updateSelectedShapeStrokeWeight (w : Option ℚ) (s : EditorState) : EditorState :=
  if decide (s.selectedShapeIndex ≠ -1) && (shapeAt s.shapes s.selectedShapeIndex).isSome
      && isEditable s then
    let s1 := saveStateForUndo s
    let newShapes := updateShapeAt s1.shapes s1.selectedShapeIndex
      (fun sh => {sh with strokeW := w.getD 0})
    {s1 with shapes := newShapes}
  else s

/-- The default layer of `addNewShape()` (line 688). -/
def defaultNewShape : Shape :=
  ⟨[⟨-1/5, 1/5⟩, ⟨1/5, 1/5⟩, ⟨0, -1/5⟩], [150, 150, 180], [50, 50, 60], 1⟩

/-- `addNewShape()` (lines 685-698): snapshot, prepend the default layer
(top-most) and select it; a fresh session becomes a blank design. -/
def addNewShape (s : EditorState) : EditorState :=
  if !(isEditable s) && !(s.currentShipKey == some blankKey) then s
  else
    let s1 := saveStateForUndo s
    let s2 := {s1 with shapes := defaultNewShape :: s1.shapes,
                       selectedShapeIndex := 0, selectedVertexIndices := []}
    let s3 :=
      if s2.currentShipKey == none || s2.currentShipKey == some "Select a Ship..." then
        {s2 with currentShipKey := some blankKey, currentShipDef := none}
      else s2
    updateUIControls s3

/-! ## Symmetry normalizer (src/editor.js lines 719-758) -/

/-- Pass 1 of `straightenMirroredVertices` on one vertex (lines 726-731):
snap a nonzero coordinate with absolute value under `threshold / 2` to 0;
the flag reports whether a snap happened. -/
def snapVertex (th : ℚ) (v : Vertex) : Vertex × Bool :=
  let snapX := decide (|v.x| < th / 2) && decide (v.x ≠ 0)
  let snapY := decide (|v.y| < th / 2) && decide (v.y ≠ 0)
  (⟨if snapX then 0 else v.x, if snapY then 0 else v.y⟩, snapX || snapY)

/-- Pass 1 over the whole vertex list, counting adjusted vertices. -/
def snapPass (th : ℚ) (vs : List Vertex) : List Vertex × Nat :=
  vs.foldr (fun v acc =>
    let r := snapVertex th v
    (r.1 :: acc.1, (if r.2 then 1 else 0) + acc.2)) ([], 0)

/-- The approximate X-mirror test of line 741. -/
def xMirrorCond (th : ℚ) (vi vj : Vertex) : Bool :=
  (decide (|vi.y| > th / 4) || decide (|vj.y| > th / 4))
    && decide (|vi.x - vj.x| < th) && decide (|vi.y + vj.y| < th)

/-- The approximate Y-mirror test of line 748. -/
def yMirrorCond (th : ℚ) (vi vj : Vertex) : Bool :=
  (decide (|vi.x| > th / 4) || decide (|vj.x| > th / 4))
    && decide (|vi.x + vj.x| < th) && decide (|vi.y - vj.y| < th)

/-- `Math.sign` on a rational. -/
def qsign (q : ℚ) : ℚ :=
  if 0 < q then 1 else if q < 0 then -1 else 0

/-- JS `a || b` on numbers (no NaN in the model). -/
def jsOr (a b : ℚ) : ℚ := if a = 0 then b else a

/-- `Math.sign(c_i) || (c_j === 0 ? 1 : -Math.sign(c_j)) || 1`
(lines 743 and 750). -/
def mirrorSign (ci cj : ℚ) : ℚ :=
  jsOr (jsOr (qsign ci) (if cj = 0 then 1 else -qsign cj)) 1

/-- The X-mirror adjustment of lines 742-744: average the shared x and the
mirrored |y|, reapply with the inferred sign. -/
def applyXMirror (vi vj : Vertex) : Vertex × Vertex :=
  let newX := (vi.x + vj.x) / 2
  let newAbsY := (|vi.y| + |vj.y|) / 2
  let si := mirrorSign vi.y vj.y
  (⟨newX, newAbsY * si⟩, ⟨newX, -(newAbsY * si)⟩)

/-- The Y-mirror adjustment of lines 749-751. -/
def applyYMirror (vi vj : Vertex) : Vertex × Vertex :=
  let newY := (vi.y + vj.y) / 2
  let newAbsX := (|vi.x| + |vj.x|) / 2
  let si := mirrorSign vi.x vj.x
  (⟨newAbsX * si, newY⟩, ⟨-(newAbsX * si), newY⟩)

/-- The inner `j` loop of pass 2 (lines 737-754): first unprocessed `j`
matching the X-mirror test (preferred) or the Y-mirror test. -/
def innerScan (th : ℚ) (vs : List Vertex) (proc : List Nat) (i : Nat) :
    List Nat → Option (Nat × Bool)
  | [] => none
  | j :: rest =>
    if proc.contains j then innerScan th vs proc i rest
    else
      let vi := vs.getD i ⟨0, 0⟩
      let vj := vs.getD j ⟨0, 0⟩
      if xMirrorCond th vi vj then some (j, true)
      else if yMirrorCond th vi vj then some (j, false)
      else innerScan th vs proc i rest

/-- One outer iteration of pass 2 (lines 734-755): skip processed
vertices; on a match, adjust both vertices, mark both consumed, count one
adjustment, and break the inner loop. -/
def mirrorStep (th : ℚ) (st : List Vertex × List Nat × Nat) (i : Nat) :
    List Vertex × List Nat × Nat :=
  if st.2.1.contains i then st
  else
    match innerScan th st.1 st.2.1 i (List.range' (i + 1) (st.1.length - (i + 1))) with
    | none => st
    | some (j, isX) =>
      let vi := st.1.getD i ⟨0, 0⟩
      let vj := st.1.getD j ⟨0, 0⟩
      let pair := if isX then applyXMirror vi vj else applyYMirror vi vj
      ((st.1.set i pair.1).set j pair.2, i :: j :: st.2.1, st.2.2 + 1)

/-- Pass 2 over all vertices, returning the adjusted list and the number
of paired adjustments. -/
def mirrorPass (th : ℚ) (vs : List Vertex) : List Vertex × Nat :=
  let r := (List.range vs.length).foldl (mirrorStep th) (vs, [], 0)
  (r.1, r.2.2)

/-- `straightenMirroredVertices(shape, threshold)` (lines 719-758),
returning the adjusted shape together with `adjustmentsMade`. -/
def straightenMirroredVertices (sh : Shape) (th : ℚ) : Shape × Nat :=
  if sh.vertexData.length < 2 then (sh, 0)
  else
    let p1 := snapPass th sh.vertexData
    let p2 := mirrorPass th p1.1
    ({sh with vertexData := p2.1}, p1.2 + p2.2)

/-- `handleStraightenClick()` (lines 712-717): snapshot, then straighten
the selected layer with the fixed threshold. -/
def handleStraightenClick (s : EditorState) : EditorState :=
  if decide (s.selectedShapeIndex ≠ -1) && isEditable s
      && (shapeAt s.shapes s.selectedShapeIndex).isSome then
    let s1 := saveStateForUndo s
    let newShapes := updateShapeAt s1.shapes s1.selectedShapeIndex
      (fun sh => (straightenMirroredVertices sh straightenThreshold).1)
    {s1 with shapes := newShapes}
  else s

/-! ## Ship selection (src/editor.js lines 340-386) -/

/-- The fresh layer built from a catalog Base Definition (lines 361-366):
a deep copy of `vertexData`, colors with spread-copy and defaults, and
`strokeW || 1`. -/
def loadShapeFromDef (d : ShipDef) : Shape :=
  ⟨d.vertexData,
   d.fillColor.getD [180, 180, 180],
   d.strokeColor.getD [50, 50, 50],
   match d.strokeW with
   | none => 1
   | some w => if w = 0 then 1 else w⟩

/-- `SHIP_DEFINITIONS[key]` lookup. -/
def lookupDef (defs : List (String × ShipDef)) (k : String) : Option ShipDef :=
  (defs.find? (fun p => p.1 == k)).map (fun p => p.2)

/-- `handleShipSelection()` (lines 340-386): reset all interaction state
and the undo history, then load a blank design, a deep copy of the
selected catalog definition (when it has editable vertex data and is not
the Thargoid), or nothing. -/
def handleShipSelection (selValue : String) (s0 : EditorState) : EditorState :=
  let s := {s0 with currentShipKey := some selValue, shapes := [],
                    selectedShapeIndex := -1, selectedVertexIndices := [],
                    addingVertexMode := false, draggingShape := false,
                    draggingVertex := false, dragConstrainedAxis := none,
                    dragOccurred := false, historyStack := []}
  let s' :=
    if selValue == blankKey then {s with currentShipDef := none}
    else
      match lookupDef s.shipDefs selValue with
      | some d =>
        let s1 := {s with currentShipDef := some d}
        if decide (d.vertexData.length > 0) && !(isThargoidSelected s1) then
          {s1 with shapes := [loadShapeFromDef d], selectedShapeIndex := 0}
        else s1
      | none => {s with currentShipKey := none, currentShipDef := none}
  updateUIControls s'

/-! ## The mutating operations of the Shape Set

Each operation below is exactly one snapshot-guarded user action of the
source: a full vertex drag (press, any number of drag events, release), a
full layer drag, an add-vertex click, vertex deletion, layer deletion,
layer addition, recolor (fill or stroke), restroke (weight), and
straighten.  `opEnabled` states the source's own guard conditions under
which the action takes its mutating (snapshot-then-edit) branch. -/

/-- One `mouseDragged` event: current and previous-frame mouse position
plus the shift key state. -/
structure DragEv where
  mx : ℚ
  my : ℚ
  pmx : ℚ
  pmy : ℚ
  shift : Bool
  deriving DecidableEq

def runDrags (drags : List DragEv) (s : EditorState) : EditorState :=
  drags.foldl (fun st d => mouseDragged d.mx d.my d.pmx d.pmy d.shift st) s

inductive MutatingOp where
  | vertexDragOp (mx my : ℚ) (drags : List DragEv)
  | layerDragOp (mx my : ℚ) (drags : List DragEv)
  | insertVertexOp (mx my : ℚ)
  | deleteVerticesOp (code : Nat)
  | deleteLayerOp (code : Nat)
  | addLayerOp
  | recolorFillOp (rgb : List ℚ)
  | recolorStrokeOp (rgb : List ℚ)
  | restrokeOp (w : Option ℚ)
  | straightenOp
  deriving DecidableEq

def applyOp (op : MutatingOp) (s : EditorState) : EditorState :=
  match op with
  | .vertexDragOp mx my drags => mouseReleased (runDrags drags (mousePressed mx my false s))
  | .layerDragOp mx my drags => mouseReleased (runDrags drags (mousePressed mx my false s))
  | .insertVertexOp mx my => mousePressed mx my false s
  | .deleteVerticesOp code => keyPressed code false false false s
  | .deleteLayerOp code => keyPressed code false true false s
  | .addLayerOp => addNewShape s
  | .recolorFillOp rgb => updateSelectedShapeFill rgb s
  | .recolorStrokeOp rgb => updateSelectedShapeStroke rgb s
  | .restrokeOp w => updateSelectedShapeStrokeWeight w s
  | .straightenOp => handleStraightenClick s

def applyOps (ops : List MutatingOp) (s : EditorState) : EditorState :=
  ops.foldl (fun st op => applyOp op st) s

/-- The source's own guard under which each operation actually takes its
snapshot-then-mutate branch (rather than being a pure selection change or
a no-op). -/
def opEnabled : MutatingOp → EditorState → Prop
  | .vertexDragOp mx my _, s =>
    pressBlocked mx my s = false
      ∧ addModeConsumes (resetPress s) (interactionR s) = false
      ∧ (clickedVertexHandleIdx (resetPress s) (interactionR s)
          (mx - canvasW / 2) (my - canvasH / 2)).isSome = true
  | .layerDragOp mx my _, s =>
    pressBlocked mx my s = false
      ∧ addModeConsumes (resetPress s) (interactionR s) = false
      ∧ clickedVertexHandleIdx (resetPress s) (interactionR s)
          (mx - canvasW / 2) (my - canvasH / 2) = none
      ∧ (∃ ci : Nat,
          layerHitIdx s.shapes ((mx - canvasW / 2) / interactionR s)
            ((my - canvasH / 2) / interactionR s) = some ci
          ∧ (ci : Int) = s.selectedShapeIndex)
      ∧ isEditable s = true
  | .insertVertexOp mx my, s =>
    pressBlocked mx my s = false
      ∧ addModeConsumes (resetPress s) (interactionR s) = true
      ∧ (addVertexTarget (resetPress s) (interactionR s) (mx - canvasW / 2) (my - canvasH / 2)
          ((mx - canvasW / 2) / interactionR s) ((my - canvasH / 2) / interactionR s)).isSome = true
  | .deleteVerticesOp code, s =>
    isThargoidSelected s = false ∧ (code = keyDelete ∨ code = keyBackspace)
      ∧ s.selectedShapeIndex ≠ -1 ∧ s.selectedVertexIndices ≠ []
      ∧ isEditable s = true
      ∧ (∃ sh, shapeAt s.shapes s.selectedShapeIndex = some sh
          ∧ (sh.vertexData.length : Int) - (s.selectedVertexIndices.length : Int) ≥ 3)
  | .deleteLayerOp code, s =>
    isThargoidSelected s = false ∧ (code = keyDelete ∨ code = keyBackspace)
      ∧ s.selectedShapeIndex ≠ -1 ∧ isEditable s = true
      ∧ (s.shapes.length : Int) > s.selectedShapeIndex ∧ s.selectedShapeIndex ≥ 0
  | .addLayerOp, s =>
    isEditable s = true ∨ s.currentShipKey = some blankKey
  | .recolorFillOp _, s =>
    s.selectedShapeIndex ≠ -1 ∧ (shapeAt s.shapes s.selectedShapeIndex).isSome = true
      ∧ isEditable s = true
  | .recolorStrokeOp _, s =>
    s.selectedShapeIndex ≠ -1 ∧ (shapeAt s.shapes s.selectedShapeIndex).isSome = true
      ∧ isEditable s = true
  | .restrokeOp _, s =>
    s.selectedShapeIndex ≠ -1 ∧ (shapeAt s.shapes s.selectedShapeIndex).isSome = true
      ∧ isEditable s = true
  | .straightenOp, s =>
    s.selectedShapeIndex ≠ -1 ∧ isEditable s = true
      ∧ (shapeAt s.shapes s.selectedShapeIndex).isSome = true

/-! ## Helper lemmas -/

@[simp] theorem updateUIControls_shapes (s : EditorState) :
    (updateUIControls s).shapes = s.shapes := by
  unfold updateUIControls; split <;> rfl

@[simp] theorem updateUIControls_historyStack (s : EditorState) :
    (updateUIControls s).historyStack = s.historyStack := by
  unfold updateUIControls; split <;> rfl

@[simp] theorem updateUIControls_selectedShapeIndex (s : EditorState) :
    (updateUIControls s).selectedShapeIndex = s.selectedShapeIndex := by
  unfold updateUIControls; split <;> rfl

@[simp] theorem updateUIControls_selectedVertexIndices (s : EditorState) :
    (updateUIControls s).selectedVertexIndices = s.selectedVertexIndices := by
  unfold updateUIControls; split <;> rfl

@[simp] theorem updateUIControls_shipDefs (s : EditorState) :
    (updateUIControls s).shipDefs = s.shipDefs := by
  unfold updateUIControls; split <;> rfl

theorem toRaw_toVertex (v : Vertex) : v.toRaw.toVertex = v := rfl

theorem toShape_toRaw (sh : Shape) : sh.toRaw.toShape = sh := by
  cases sh with
  | mk vd fc sc w =>
    simp [Shape.toRaw, RawShape.toShape, List.map_map, Function.comp_def, toRaw_toVertex]

theorem entryShapes_mkEntry (shs : List Shape) : entryShapes (mkEntry shs) = shs := by
  simp [entryShapes, mkEntry, List.map_map, Function.comp_def, toShape_toRaw]

theorem validEntry_mkEntry (shs : List Shape) (h : validLiveShapes shs = true) :
    validEntry (mkEntry shs) = true := by
  simp only [validEntry, mkEntry, List.all_eq_true]
  intro o ho
  obtain ⟨sh, hsh, rfl⟩ := List.mem_map.mp ho
  have hv : validLiveShape sh = true := by
    simp only [validLiveShapes, List.all_eq_true] at h
    exact h sh hsh
  simp only [validLiveShape, Bool.and_eq_true, beq_iff_eq] at hv
  simp [validRawShape, Shape.toRaw, List.all_map, hv.1, hv.2,
    List.all_eq_true, Vertex.toRaw]

theorem pushHistory_cons (e : HistEntry) (hs : List HistEntry) :
    ∃ rest, pushHistory e hs = e :: rest := by
  simp only [pushHistory]
  split
  · cases hs with
    | nil => simp_all [maxHistorySize]
    | cons a t => exact ⟨(a :: t).dropLast, rfl⟩
  · exact ⟨hs, rfl⟩

@[simp] theorem saveStateForUndo_shapes (s : EditorState) :
    (saveStateForUndo s).shapes = s.shapes := by
  unfold saveStateForUndo; split <;> simp

@[simp] theorem saveStateForUndo_selectedShapeIndex (s : EditorState) :
    (saveStateForUndo s).selectedShapeIndex = s.selectedShapeIndex := by
  unfold saveStateForUndo; split <;> simp

@[simp] theorem saveStateForUndo_selectedVertexIndices (s : EditorState) :
    (saveStateForUndo s).selectedVertexIndices = s.selectedVertexIndices := by
  unfold saveStateForUndo; split <;> simp

@[simp] theorem saveStateForUndo_shipDefs (s : EditorState) :
    (saveStateForUndo s).shipDefs = s.shipDefs := by
  unfold saveStateForUndo; split <;> simp

theorem saveStateForUndo_historyStack_valid (s : EditorState)
    (h : validLiveShapes s.shapes = true) :
    (saveStateForUndo s).historyStack = pushHistory (mkEntry s.shapes) s.historyStack := by
  unfold saveStateForUndo
  simp [h]

/-- After any state whose stack starts with a valid live snapshot, undo
restores exactly that snapshot's shapes. -/
theorem undo_restores_top (t : EditorState) (shs : List Shape) (rest : List HistEntry)
    (hst : t.historyStack = mkEntry shs :: rest) (hv : validLiveShapes shs = true) :
    (undoLastChange t).shapes = shs := by
  unfold undoLastChange
  rw [hst]
  simp [validEntry_mkEntry shs hv, entryShapes_mkEntry]

/-- The state after a successful snapshot has the old shapes on top of its
stack. -/
theorem saveStateForUndo_stack_top (s : EditorState) (h : validLiveShapes s.shapes = true) :
    ∃ rest, (saveStateForUndo s).historyStack = mkEntry s.shapes :: rest := by
  rw [saveStateForUndo_historyStack_valid s h]
  exact pushHistory_cons _ _

/-! ## C10: distSqToSegment -/

theorem distSq_nonneg (x1 y1 x2 y2 : ℚ) : 0 ≤ distSq x1 y1 x2 y2 := by
  simp only [distSq]
  exact add_nonneg (mul_self_nonneg _) (mul_self_nonneg _)

theorem distSq_eq_zero_iff (x1 y1 x2 y2 : ℚ) :
    distSq x1 y1 x2 y2 = 0 ↔ x1 = x2 ∧ y1 = y2 := by
  simp only [distSq]
  constructor
  · intro h
    have h1 : (x1 - x2) * (x1 - x2) = 0 := by
      nlinarith [mul_self_nonneg (x1 - x2), mul_self_nonneg (y1 - y2)]
    have h2 : (y1 - y2) * (y1 - y2) = 0 := by
      nlinarith [mul_self_nonneg (x1 - x2), mul_self_nonneg (y1 - y2)]
    have hx := mul_self_eq_zero.mp h1
    have hy := mul_self_eq_zero.mp h2
    exact ⟨by linarith, by linarith⟩
  · rintro ⟨rfl, rfl⟩; ring

/-- The raw projection parameter of the point onto the segment's line, as
the spec describes it ("projects the point onto the segment"). -/
def projParam (px py x1 y1 x2 y2 : ℚ) : ℚ :=
  ((px - x1) * (x2 - x1) + (py - y1) * (y2 - y1)) / distSq x1 y1 x2 y2

/-- Clamping of the projection parameter to `[0, 1]`. -/
def clamp01 (t : ℚ) : ℚ := max 0 (min 1 t)

/-- C10 (confirmed): `distSqToSegment` on a zero-length segment returns
the squared distance to the (single) endpoint; on a non-degenerate segment
it returns the squared distance to the projection of the point clamped to
the segment; the result is always well-defined and non-negative. -/
theorem c10_distSqToSegment_spec (px py x1 y1 x2 y2 : ℚ) :
    0 ≤ distSqToSegment px py x1 y1 x2 y2
    ∧ (x1 = x2 ∧ y1 = y2 →
        distSqToSegment px py x1 y1 x2 y2 = distSq px py x1 y1)
    ∧ (¬(x1 = x2 ∧ y1 = y2) →
        distSqToSegment px py x1 y1 x2 y2 =
          distSq px py
            (x1 + clamp01 (projParam px py x1 y1 x2 y2) * (x2 - x1))
            (y1 + clamp01 (projParam px py x1 y1 x2 y2) * (y2 - y1))) := by
  simp only [distSqToSegment]
  by_cases hz : distSq x1 y1 x2 y2 = 0
  · refine ⟨?_, fun _ => by simp [hz], fun hne => ?_⟩
    · simp only [hz, if_pos]
      exact distSq_nonneg _ _ _ _
    · exact absurd ((distSq_eq_zero_iff x1 y1 x2 y2).mp hz) hne
  · refine ⟨?_, fun he => ?_, fun _ => ?_⟩
    · simp only [hz, if_neg, if_false]
      exact distSq_nonneg _ _ _ _
    · exact absurd ((distSq_eq_zero_iff x1 y1 x2 y2).mpr he) hz
    · simp [hz, projParam, clamp01]

/-- Witness for C10 at concrete inputs: the degenerate segment at `(1,1)`
queried from `(3,4)`, and a non-degenerate horizontal segment whose clamped
projection is its right endpoint. -/
theorem c10_distSqToSegment_spec_witness :
    distSqToSegment 3 4 1 1 1 1 = distSq 3 4 1 1
    ∧ 0 ≤ distSqToSegment 3 4 1 1 1 1
    ∧ distSqToSegment 5 0 0 0 2 0 =
        distSq 5 0 (0 + clamp01 (projParam 5 0 0 0 2 0) * (2 - 0))
          (0 + clamp01 (projParam 5 0 0 0 2 0) * (0 - 0)) :=
  ⟨(c10_distSqToSegment_spec 3 4 1 1 1 1).2.1 ⟨rfl, rfl⟩,
   (c10_distSqToSegment_spec 3 4 1 1 1 1).1,
   (c10_distSqToSegment_spec 5 0 0 0 2 0).2.2 (by decide)⟩

/-! ## C7: isPointInPolygon on degenerate / malformed input -/

theorem pipStep_malformed (px py : ℚ) (poly : List RawVertex)
    (h : ∀ v ∈ poly, v.malformed = true) (b : Bool) (i : Nat) :
    pipStep px py poly b i = b := by
  have key : (poly.getD i ⟨none, none⟩).malformed = true := by
    rw [List.getD_eq_getD_get?]
    cases hj : poly.get? i with
    | none => rfl
    | some v => exact h v (List.get?_mem hj)
  unfold pipStep
  rcases hvi : poly.getD i ⟨none, none⟩ with ⟨ox, oy⟩
  rcases hvj : poly.getD ((i + poly.length - 1) % poly.length) ⟨none, none⟩ with ⟨ox2, oy2⟩
  rw [hvi] at key
  rcases ox with _ | xv <;> rcases oy with _ | yv <;>
    rcases ox2 with _ | xv2 <;> rcases oy2 with _ | yv2 <;>
      first
        | rfl
        | (exfalso; simp [RawVertex.malformed] at key)

theorem foldl_pipStep_malformed (px py : ℚ) (poly : List RawVertex)
    (h : ∀ v ∈ poly, v.malformed = true) (l : List Nat) (b : Bool) :
    l.foldl (pipStep px py poly) b = b := by
  induction l generalizing b with
  | nil => rfl
  | cons a t ih => rw [List.foldl_cons, pipStep_malformed px py poly h b a, ih]

/-- C7 counterexample polygon: an axis-aligned square around the origin
followed by one malformed vertex entry. -/
def c7poly : List RawVertex :=
  [⟨some (-10), some (-10)⟩, ⟨some 10, some (-10)⟩, ⟨some 10, some 10⟩,
   ⟨some (-10), some 10⟩, ⟨none, none⟩]

/-- C7 counterexample: the claim "returns false whenever the vertex list
contains malformed vertex entries" is false — on a square plus one
malformed entry the ray-crossing loop merely skips the two edges incident
to the malformed entry and still reports the origin inside. -/
theorem c7_counterexample :
    (c7poly.any RawVertex.malformed = true) ∧ isPointInPolygon 0 0 c7poly = true :=
  of_decide_eq_true (by with_unfolding_all rfl)

/-- C7 as amended (proved): `isPointInPolygon` returns false for fewer
than 3 entries, and also when every entry is malformed (every edge is then
skipped); but a list that merely contains some malformed entries can still
yield true, because edges incident to a malformed entry are skipped rather
than failing the whole test. -/
theorem c7_pointInPolygon_degenerate (px py : ℚ) (poly : List RawVertex)
    (h : poly.length < 3 ∨ ∀ v ∈ poly, v.malformed = true) :
    isPointInPolygon px py poly = false := by
  unfold isPointInPolygon
  rcases h with hlen | hmal
  · simp [hlen]
  · split
    · rfl
    · exact foldl_pipStep_malformed px py poly hmal _ false

/-- Witness for the amended C7: a 2-entry list of genuine numbers, and a
3-entry list of malformed vertices. -/
theorem c7_pointInPolygon_degenerate_witness :
    isPointInPolygon 0 0 [⟨some 1, some 1⟩, ⟨some 2, some 2⟩] = false
    ∧ isPointInPolygon 0 0 [⟨none, some 1⟩, ⟨some 2, none⟩, ⟨none, none⟩] = false :=
  ⟨c7_pointInPolygon_degenerate 0 0 _ (Or.inl (by decide)),
   c7_pointInPolygon_degenerate 0 0 _ (Or.inr (by decide))⟩

/-! ## shapeAt / updateShapeAt interaction -/

theorem shapeAt_updateShapeAt_self (shs : List Shape) (i : Int) (f : Shape → Shape) :
    shapeAt (updateShapeAt shs i f) i = (shapeAt shs i).map f := by
  unfold shapeAt updateShapeAt
  by_cases h : 0 ≤ i
  · simp only [h, if_true]
    cases hg : shs.get? i.toNat with
    | none => simp [hg, List.get?_eq_none.mp hg]
    | some sh =>
      have hlt : i.toNat < shs.length := by
        by_contra hge
        rw [List.get?_eq_none.mpr (Nat.le_of_not_lt hge)] at hg
        exact Option.noConfusion hg
      simp [hg, List.get?_eq_getElem?, List.getElem?_set_self', hlt,
        List.getElem?_eq_getElem]
  · simp [h]

theorem shapeAt_updateShapeAt_ne (shs : List Shape) (i j : Int) (f : Shape → Shape)
    (hne : j ≠ i) :
    shapeAt (updateShapeAt shs i f) j = shapeAt shs j := by
  unfold shapeAt updateShapeAt
  by_cases hi : 0 ≤ i
  · simp only [hi, if_true]
    cases hg : shs.get? i.toNat with
    | none => simp
    | some sh =>
      by_cases hj : 0 ≤ j
      · have hnat : j.toNat ≠ i.toNat := by
          intro he
          exact hne (by omega)
        simp [hj, List.get?_eq_getElem?, List.getElem?_set_ne (Ne.symm hnat)]
      · simp [hj]
  · simp [hi]

/-! ## C3: restore atomicity on corruption -/

/-- C3 (confirmed): when the popped snapshot fails validation, the whole
history stack is cleared and the restore aborts, leaving the shape set,
layer selection and vertex selection exactly as they were. -/
theorem c3_restore_atomic (s : EditorState) (e : HistEntry) (rest : List HistEntry)
    (hst : s.historyStack = e :: rest) (hbad : validEntry e = false) :
    (undoLastChange s).shapes = s.shapes
    ∧ (undoLastChange s).historyStack = []
    ∧ (undoLastChange s).selectedShapeIndex = s.selectedShapeIndex
    ∧ (undoLastChange s).selectedVertexIndices = s.selectedVertexIndices := by
  unfold undoLastChange
  rw [hst]
  simp [hbad]

/-- A corrupted snapshot for the C3 witness: one shape whose single vertex
has a non-numeric `x` (plus well-formed colors), exercising the
per-vertex validation failure. -/
def c3badEntry : HistEntry :=
  some [some ⟨some [⟨none, some 1⟩], some [some 1, some 2, some 3],
    some [some 1, some 2, some 3], some 1⟩]

/-- A concrete editor state for the C3 witness. -/
def c3state : EditorState :=
  { shapes := [⟨[⟨0, 1⟩], [1, 2, 3], [4, 5, 6], 1⟩],
    historyStack := [c3badEntry, mkEntry []],
    selectedShapeIndex := 0, selectedVertexIndices := [0],
    draggingVertex := false, draggingShape := false, addingVertexMode := false,
    dragOccurred := false, dragVertexStartX := 0, dragVertexStartY := 0,
    dragVertexInitialPositions := [], dragShapeStartX := 0, dragShapeStartY := 0,
    dragConstrainedAxis := none, currentShipKey := some blankKey,
    currentShipDef := none, baseDisplaySize := 350, maxDefinedShipSize := 50,
    shipDefs := [] }

/-- Witness for C3 at a concrete corrupted stack. -/
theorem c3_restore_atomic_witness :
    (c3state.historyStack = c3badEntry :: [mkEntry []] ∧ validEntry c3badEntry = false)
    ∧ ((undoLastChange c3state).shapes = c3state.shapes
        ∧ (undoLastChange c3state).historyStack = []
        ∧ (undoLastChange c3state).selectedShapeIndex = c3state.selectedShapeIndex
        ∧ (undoLastChange c3state).selectedVertexIndices = c3state.selectedVertexIndices) :=
  ⟨⟨rfl, rfl⟩, c3_restore_atomic c3state c3badEntry [mkEntry []] rfl rfl⟩

/-! ## C2: minimum-3-vertex invariant on vertex deletion -/

/-- C2 (confirmed): with the Delete/Backspace key, no shift, a selected
layer and a non-empty vertex selection, the deletion is rejected — the
whole state unchanged — exactly when fewer than 3 vertices would remain;
otherwise precisely the selected indices are removed from the selected
layer, other layers are untouched, and the vertex selection is cleared. -/
theorem c2_delete_vertices_min3 (s : EditorState) (code : Nat) (sh : Shape)
    (hth : isThargoidSelected s = false)
    (hcode : code = keyDelete ∨ code = keyBackspace)
    (hsel : s.selectedShapeIndex ≠ -1)
    (hnonempty : s.selectedVertexIndices ≠ [])
    (hed : isEditable s = true)
    (hsh : shapeAt s.shapes s.selectedShapeIndex = some sh) :
    ((sh.vertexData.length : Int) - (s.selectedVertexIndices.length : Int) < 3 →
        keyPressed code false false false s = s)
    ∧ ((sh.vertexData.length : Int) - (s.selectedVertexIndices.length : Int) ≥ 3 →
        shapeAt (keyPressed code false false false s).shapes s.selectedShapeIndex =
          some {sh with vertexData :=
            (sh.vertexData.enum.filter
              (fun p => decide (p.1 ∉ s.selectedVertexIndices))).map (fun p => p.2)}
        ∧ (∀ j : Int, j ≠ s.selectedShapeIndex →
            shapeAt (keyPressed code false false false s).shapes j = shapeAt s.shapes j)
        ∧ (keyPressed code false false false s).selectedVertexIndices = []) := by
  have hlen : 0 < s.selectedVertexIndices.length := List.length_pos.mpr hnonempty
  have hguard : ((code == keyDelete || code == keyBackspace) && !false
      && decide (s.selectedShapeIndex ≠ -1) && decide (s.selectedVertexIndices.length > 0)
      && isEditable s) = true := by
    rcases hcode with rfl | rfl <;> simp [hsel, hlen, hed]
  have hfilter :
      (fun p : Nat × Vertex => !(s.selectedVertexIndices.contains p.1)) =
        (fun p : Nat × Vertex => decide (p.1 ∉ s.selectedVertexIndices)) := by
    funext p
    by_cases hm : p.1 ∈ s.selectedVertexIndices <;> simp [hm]
  unfold keyPressed
  rw [hth]
  simp only [Bool.false_eq_true, if_false, hguard, if_true]
  unfold deleteSelectedVertices
  rw [hsh]
  constructor
  · intro hlt
    have : ¬((sh.vertexData.length : Int) - (s.selectedVertexIndices.length : Int) ≥ 3) := by
      omega
    simp only [this, if_false]
  · intro hge
    simp only [hge, if_true]
    refine ⟨?_, ?_, ?_⟩
    · simp only [updateUIControls_shapes, saveStateForUndo_shapes,
        saveStateForUndo_selectedShapeIndex]
      rw [shapeAt_updateShapeAt_self, hsh]
      simp [hfilter]
    · intro j hj
      simp only [updateUIControls_shapes, saveStateForUndo_shapes,
        saveStateForUndo_selectedShapeIndex]
      rw [shapeAt_updateShapeAt_ne _ _ _ _ hj]
    · trivial

/-- A concrete 4-vertex layer state shared by several witnesses (a blank
design with one diamond layer selected). -/
def diamondShape : Shape :=
  ⟨[⟨0, -1⟩, ⟨1, 0⟩, ⟨0, 1⟩, ⟨-1, 0⟩], [1, 2, 3], [4, 5, 6], 1⟩

def diamondState : EditorState :=
  { shapes := [diamondShape], historyStack := [],
    selectedShapeIndex := 0, selectedVertexIndices := [],
    draggingVertex := false, draggingShape := false, addingVertexMode := false,
    dragOccurred := false, dragVertexStartX := 0, dragVertexStartY := 0,
    dragVertexInitialPositions := [], dragShapeStartX := 0, dragShapeStartY := 0,
    dragConstrainedAxis := none, currentShipKey := some blankKey,
    currentShipDef := none, baseDisplaySize := 350, maxDefinedShipSize := 50,
    shipDefs := [] }

/-- Witness for C2: deleting vertices 1 and 2 of a 4-vertex diamond is
rejected (4 - 2 = 2 < 3) and the whole state is unchanged. -/
theorem c2_delete_vertices_min3_witness :
    ((diamondShape.vertexData.length : Int) - (([1, 2] : List Nat).length : Int) < 3)
    ∧ keyPressed 46 false false false {diamondState with selectedVertexIndices := [1, 2]} =
        {diamondState with selectedVertexIndices := [1, 2]} := by
  refine ⟨by decide, ?_⟩
  exact (c2_delete_vertices_min3 {diamondState with selectedVertexIndices := [1, 2]}
      46 diamondShape rfl (Or.inl rfl) (by decide) (by decide) rfl rfl).1 (by decide)

/-! ## C8: straighten and repeated application -/

/-- C8 counterexample layer: after pass 1 snaps `-0.06` to `0`, the pair
`(0.12, 0.5)/(0, -0.5)` X-mirror-matches and both x's become `0.06` —
which the *next* call's pass 1 snaps to `0` (0.06 < threshold/2 = 0.1),
so the second call changes coordinates and reports adjustments. -/
def c8shape : Shape :=
  ⟨[⟨3/25, 1/2⟩, ⟨-3/50, -1/2⟩, ⟨5, 5⟩], [0, 0, 0], [0, 0, 0], 1⟩

/-- C8 counterexample: straighten applied a second time immediately after
a first application can still move vertex coordinates and reports a
nonzero number of adjustments, refuting idempotence as claimed. -/
theorem c8_counterexample :
    (straightenMirroredVertices
        (straightenMirroredVertices c8shape straightenThreshold).1 straightenThreshold).1
      ≠ (straightenMirroredVertices c8shape straightenThreshold).1
    ∧ (straightenMirroredVertices
        (straightenMirroredVertices c8shape straightenThreshold).1 straightenThreshold).2
      ≠ 0 :=
  of_decide_eq_true (by with_unfolding_all rfl)

theorem snapPass_zero (th : ℚ) (vs : List Vertex) (h : (snapPass th vs).2 = 0) :
    (snapPass th vs).1 = vs := by
  induction vs with
  | nil => rfl
  | cons v t ih =>
    have hstep : snapPass th (v :: t) =
        ((snapVertex th v).1 :: (snapPass th t).1,
          (if (snapVertex th v).2 then 1 else 0) + (snapPass th t).2) := rfl
    rw [hstep] at h ⊢
    simp only at h
    cases hb : (snapVertex th v).2 with
    | true => rw [hb] at h; simp at h
    | false =>
      rw [hb] at h
      simp only [if_neg Bool.false_ne_true, Nat.zero_add] at h
      simp only
      have hb' := hb
      unfold snapVertex at hb'
      simp only [Bool.or_eq_false_iff, Bool.and_eq_false_iff,
        decide_eq_false_iff_not, not_not] at hb'
      have hpx : ¬(|v.x| < th / 2 ∧ v.x ≠ 0) := by
        rcases hb'.1 with h1 | h1
        · exact fun hand => h1 hand.1
        · exact fun hand => hand.2 h1
      have hpy : ¬(|v.y| < th / 2 ∧ v.y ≠ 0) := by
        rcases hb'.2 with h1 | h1
        · exact fun hand => h1 hand.1
        · exact fun hand => hand.2 h1
      have hv : (snapVertex th v).1 = v := by
        simp [snapVertex, hpx, hpy]
      rw [ih h, hv]

theorem mirrorStep_count_le (th : ℚ) (st : List Vertex × List Nat × Nat) (i : Nat) :
    st.2.2 ≤ (mirrorStep th st i).2.2 := by
  by_cases hc : i ∈ st.2.1
  · simp [mirrorStep, hc]
  · cases hscan : innerScan th st.1 st.2.1 i
        (List.range' (i + 1) (st.1.length - (i + 1))) with
    | none => simp [mirrorStep, hc, hscan]
    | some p =>
      obtain ⟨j, isX⟩ := p
      simp [mirrorStep, hc, hscan]

theorem mirrorStep_eq_of_count (th : ℚ) (st : List Vertex × List Nat × Nat) (i : Nat)
    (h : (mirrorStep th st i).2.2 = st.2.2) : mirrorStep th st i = st := by
  by_cases hc : i ∈ st.2.1
  · simp [mirrorStep, hc]
  · cases hscan : innerScan th st.1 st.2.1 i
        (List.range' (i + 1) (st.1.length - (i + 1))) with
    | none => simp [mirrorStep, hc, hscan]
    | some p =>
      obtain ⟨j, isX⟩ := p
      exfalso
      simp [mirrorStep, hc, hscan] at h

theorem foldl_mirrorStep_count_le (th : ℚ) (l : List Nat)
    (st : List Vertex × List Nat × Nat) :
    st.2.2 ≤ (l.foldl (mirrorStep th) st).2.2 := by
  induction l generalizing st with
  | nil => exact le_refl _
  | cons a t ih => exact le_trans (mirrorStep_count_le th st a) (ih _)

theorem foldl_mirrorStep_eq_of_count (th : ℚ) (l : List Nat)
    (st : List Vertex × List Nat × Nat)
    (h : (l.foldl (mirrorStep th) st).2.2 = st.2.2) : l.foldl (mirrorStep th) st = st := by
  induction l generalizing st with
  | nil => rfl
  | cons a t ih =>
    rw [List.foldl_cons] at h ⊢
    have h1 : (mirrorStep th st a).2.2 = st.2.2 := by
      have hle1 := foldl_mirrorStep_count_le th t (mirrorStep th st a)
      have hle2 := mirrorStep_count_le th st a
      omega
    rw [mirrorStep_eq_of_count th st a h1] at h ⊢
    exact ih _ h

/-- C8 as amended (proved): straighten is *not* idempotent in general (see
the counterexample); what holds is that a straighten call reporting zero
adjustments has changed nothing, so after such a call a second call also
makes zero adjustments and leaves every vertex coordinate unchanged. -/
theorem c8_straighten_zero_adjust (sh sh' : Shape)
    (h : straightenMirroredVertices sh straightenThreshold = (sh', 0)) :
    sh' = sh ∧ straightenMirroredVertices sh' straightenThreshold = (sh', 0) := by
  have hsh : sh' = sh := by
    unfold straightenMirroredVertices at h
    split at h
    · exact (Prod.mk.injEq .. ▸ h).1.symm
    · simp only at h
      obtain ⟨h1, h2⟩ := Prod.mk.injEq .. ▸ h
      have hp1 : (snapPass straightenThreshold sh.vertexData).2 = 0 := by
        have := Nat.add_eq_zero.mp h2
        exact this.1
      have hp2 : (mirrorPass straightenThreshold
          (snapPass straightenThreshold sh.vertexData).1).2 = 0 := by
        have := Nat.add_eq_zero.mp h2
        exact this.2
      have hvs1 : (snapPass straightenThreshold sh.vertexData).1 = sh.vertexData :=
        snapPass_zero _ _ hp1
      have hvs2 : (mirrorPass straightenThreshold
          (snapPass straightenThreshold sh.vertexData).1).1 =
            (snapPass straightenThreshold sh.vertexData).1 := by
        unfold mirrorPass at hp2 ⊢
        simp only at hp2 ⊢
        rw [foldl_mirrorStep_eq_of_count _ _ _ hp2]
      rw [hvs1] at hvs2
      rw [← h1, hvs1, hvs2]
  refine ⟨hsh, ?_⟩
  rw [hsh] at h ⊢
  exact h

/-- A layer straighten leaves alone: no coordinate in the snap band, no
approximately mirrored pair. -/
def c8calm : Shape := ⟨[⟨1, 1⟩, ⟨2, 3⟩, ⟨-1, -2⟩], [0, 0, 0], [0, 0, 0], 1⟩

/-- Witness for the amended C8 on a concrete zero-adjustment layer. -/
theorem c8_straighten_zero_adjust_witness :
    straightenMirroredVertices c8calm straightenThreshold = (c8calm, 0)
    ∧ (c8calm = c8calm
        ∧ straightenMirroredVertices c8calm straightenThreshold = (c8calm, 0)) := by
  have hyp : straightenMirroredVertices c8calm straightenThreshold = (c8calm, 0) :=
    of_decide_eq_true (by with_unfolding_all rfl)
  exact ⟨hyp, c8_straighten_zero_adjust c8calm c8calm hyp⟩

/-! ## C5: add-vertex insertion -/

theorem foldl_closestEdgeStep_index_lt (vd : List Vertex) (mx my : ℚ) (l : List Nat)
    (bound : Nat) (hl : ∀ i ∈ l, i < bound) (acc : Option (Nat × ℚ))
    (hacc : ∀ bi bd, acc = some (bi, bd) → bi < bound) (ei : Nat) (d : ℚ)
    (h : l.foldl (closestEdgeStep vd mx my) acc = some (ei, d)) : ei < bound := by
  induction l generalizing acc with
  | nil => exact hacc ei d h
  | cons a t ih =>
    rw [List.foldl_cons] at h
    refine ih (fun i hi => hl i (List.mem_cons_of_mem a hi)) _ ?_ h
    intro bi bd hstep
    have ha : a < bound := hl a (List.mem_cons_self a t)
    unfold closestEdgeStep at hstep
    cases acc with
    | none =>
      simp only [Option.some.injEq, Prod.mk.injEq] at hstep
      omega
    | some p =>
      obtain ⟨pi, pd⟩ := p
      simp only at hstep
      split at hstep <;>
        simp only [Option.some.injEq, Prod.mk.injEq] at hstep
      · omega
      · have := hacc pi pd rfl
        omega

theorem findClosestEdge_index_lt (vd : List Vertex) (mx my : ℚ) (ei : Nat) (d : ℚ)
    (h : findClosestEdgeRelative vd mx my = some (ei, d)) : ei < vd.length := by
  unfold findClosestEdgeRelative at h
  split at h
  · exact absurd h (by simp)
  · exact foldl_closestEdgeStep_index_lt vd mx my _ vd.length
      (fun i hi => List.mem_range.mp hi) none (by simp) ei d h

/-- The midpoint of edge `(ei, (ei+1) % n)`, as the claim writes it. -/
def edgeMidpoint (vd : List Vertex) (ei : Nat) : Vertex :=
  ⟨((vd.getD ei ⟨0, 0⟩).x + (vd.getD ((ei + 1) % vd.length) ⟨0, 0⟩).x) / 2,
   ((vd.getD ei ⟨0, 0⟩).y + (vd.getD ((ei + 1) % vd.length) ⟨0, 0⟩).y) / 2⟩

/-- C5 (confirmed): an add-vertex-mode press on a selected layer whose
closest edge `(ei, ei+1 mod n)` lies within the 15px screen threshold
inserts exactly one new vertex — the edge midpoint — at list position
`ei + 1`, grows the vertex count by exactly 1, leaves every other layer
unchanged and clears the vertex selection. -/
theorem c5_add_vertex_insert (s : EditorState) (mx my : ℚ) (shift : Bool) (sh : Shape)
    (ei : Nat) (d : ℚ)
    (hblock : pressBlocked mx my s = false)
    (hadd : addModeConsumes (resetPress s) (interactionR s) = true)
    (hsel : s.selectedShapeIndex ≠ -1)
    (hsh : shapeAt s.shapes s.selectedShapeIndex = some sh)
    (hedge : findClosestEdgeRelative sh.vertexData ((mx - canvasW / 2) / interactionR s)
        ((my - canvasH / 2) / interactionR s) = some (ei, d))
    (hdist : distSqToSegment (mx - canvasW / 2) (my - canvasH / 2)
        ((sh.vertexData.getD ei ⟨0, 0⟩).x * interactionR s)
        ((sh.vertexData.getD ei ⟨0, 0⟩).y * interactionR s)
        ((sh.vertexData.getD ((ei + 1) % sh.vertexData.length) ⟨0, 0⟩).x * interactionR s)
        ((sh.vertexData.getD ((ei + 1) % sh.vertexData.length) ⟨0, 0⟩).y * interactionR s)
        < edgeClickMinDist ^ 2) :
    shapeAt (mousePressed mx my shift s).shapes s.selectedShapeIndex =
      some {sh with vertexData :=
        sh.vertexData.insertIdx (ei + 1) (edgeMidpoint sh.vertexData ei)}
    ∧ (sh.vertexData.insertIdx (ei + 1) (edgeMidpoint sh.vertexData ei)).length =
        sh.vertexData.length + 1
    ∧ (∀ j : Int, j ≠ s.selectedShapeIndex →
        shapeAt (mousePressed mx my shift s).shapes j = shapeAt s.shapes j)
    ∧ (mousePressed mx my shift s).selectedVertexIndices = [] := by
  have hei : ei < sh.vertexData.length := findClosestEdge_index_lt _ _ _ _ _ hedge
  have htgt : addVertexTarget (resetPress s) (interactionR s) (mx - canvasW / 2)
      (my - canvasH / 2) ((mx - canvasW / 2) / interactionR s)
      ((my - canvasH / 2) / interactionR s) = some (sh, ei) := by
    unfold addVertexTarget
    simp only [resetPress]
    have hdist' := hdist
    simp only [List.getD_eq_getD_get?, List.get?_eq_getElem?] at hdist'
    simp [hsel, hsh, hedge, hdist']
  have hmp : mousePressed mx my shift s =
      addVertexPress (resetPress s) (interactionR s) (mx - canvasW / 2) (my - canvasH / 2)
        ((mx - canvasW / 2) / interactionR s) ((my - canvasH / 2) / interactionR s) := by
    unfold mousePressed
    rw [hblock]
    simp only [Bool.false_eq_true, if_false, hadd, if_true]
  rw [hmp]
  unfold addVertexPress
  rw [htgt]
  simp only [updateUIControls_shapes, updateUIControls_selectedVertexIndices,
    saveStateForUndo_shapes]
  have hshs : (resetPress s).shapes = s.shapes := rfl
  have hidx : (resetPress s).selectedShapeIndex = s.selectedShapeIndex := rfl
  refine ⟨?_, ?_, ?_, ?_⟩
  · rw [hshs, hidx, shapeAt_updateShapeAt_self, hsh]
    simp [edgeMidpoint]
  · exact List.length_insertIdx _ _ (by omega)
  · intro j hj
    rw [hshs, hidx, shapeAt_updateShapeAt_ne _ _ _ _ hj]
  · trivial

/-- Witness for C5: a diamond layer in add-vertex mode, pressed exactly at
the screen image of the midpoint of edge 0→1; the midpoint `(1/2, -1/2)`
is inserted at position 1 and the count grows from 4 to 5. -/
theorem c5_add_vertex_insert_witness :
    shapeAt (mousePressed (775/2) (275/2) false
        {diamondState with addingVertexMode := true}).shapes 0 =
      some {diamondShape with vertexData :=
        diamondShape.vertexData.insertIdx 1 (edgeMidpoint diamondShape.vertexData 0)}
    ∧ (diamondShape.vertexData.insertIdx 1 (edgeMidpoint diamondShape.vertexData 0)).length =
        diamondShape.vertexData.length + 1
    ∧ (mousePressed (775/2) (275/2) false
        {diamondState with addingVertexMode := true}).selectedVertexIndices = [] := by
  have h := c5_add_vertex_insert {diamondState with addingVertexMode := true}
    (775/2) (275/2) false diamondShape 0 0
    (of_decide_eq_true (by with_unfolding_all rfl))
    (of_decide_eq_true (by with_unfolding_all rfl))
    (of_decide_eq_true (by with_unfolding_all rfl))
    (of_decide_eq_true (by with_unfolding_all rfl))
    (of_decide_eq_true (by with_unfolding_all rfl))
    (of_decide_eq_true (by with_unfolding_all rfl))
  exact ⟨h.1, h.2.1, h.2.2.2⟩

/-! ## C6: topmost-wins layer hit-test -/

@[simp] theorem resetPress_shapes (s : EditorState) : (resetPress s).shapes = s.shapes := rfl

@[simp] theorem resetPress_selectedShapeIndex (s : EditorState) :
    (resetPress s).selectedShapeIndex = s.selectedShapeIndex := rfl

@[simp] theorem isEditable_resetPress (s : EditorState) :
    isEditable (resetPress s) = isEditable s := rfl

theorem findIdx?_go_first {α : Type} (p : α → Bool) (l : List α) (i st : Nat) (a : α)
    (hget : l.get? i = some a) (hp : p a = true)
    (hmin : ∀ j b, j < i → l.get? j = some b → p b = false) :
    List.findIdx? p l st = some (st + i) := by
  induction l generalizing i st with
  | nil => simp at hget
  | cons x t ih =>
    rw [List.findIdx?_cons]
    cases i with
    | zero =>
      rw [List.get?_cons_zero, Option.some.injEq] at hget
      subst hget
      simp [hp]
    | succ i2 =>
      have hx : p x = false := hmin 0 x (Nat.succ_pos _) List.get?_cons_zero
      rw [hx]
      simp only [Bool.false_eq_true, if_false]
      rw [List.get?_cons_succ] at hget
      have hrec := ih i2 (st + 1) hget
        (fun j b hj hgb => hmin (j + 1) b (by omega) (by rwa [List.get?_cons_succ]))
      rw [hrec]
      congr 1
      omega

theorem layerHitIdx_eq (shs : List Shape) (mxS myS : ℚ) (i : Nat) (shi : Shape)
    (hget : shs.get? i = some shi)
    (hcont : (decide (shi.vertexData.length ≥ 3)
        && isPointInPolygonV mxS myS shi.vertexData) = true)
    (hmin : ∀ j shj, j < i → shs.get? j = some shj →
        (decide (shj.vertexData.length ≥ 3)
          && isPointInPolygonV mxS myS shj.vertexData) = false) :
    layerHitIdx shs mxS myS = some i := by
  unfold layerHitIdx
  have h := findIdx?_go_first
    (fun sh => decide (sh.vertexData.length ≥ 3) && isPointInPolygonV mxS myS sh.vertexData)
    shs i 0 shi hget hcont (fun j b hj hg => hmin j b hj hg)
  simpa using h

/-- C6 (confirmed): on a press that hits no vertex handle (and is not
consumed by add-vertex mode), the layers are polygon-containment-tested in
container order from index 0 and the first (lowest-index) layer with at
least 3 vertices containing the point becomes the selected layer — so for
two overlapping layers a click in the overlap selects layer 0. -/
theorem c6_topmost_hit (s : EditorState) (mx my : ℚ) (shift : Bool) (i : Nat) (shi : Shape)
    (hblock : pressBlocked mx my s = false)
    (hadd : addModeConsumes (resetPress s) (interactionR s) = false)
    (hhandle : clickedVertexHandleIdx (resetPress s) (interactionR s)
        (mx - canvasW / 2) (my - canvasH / 2) = none)
    (hed : isEditable s = true)
    (hget : s.shapes.get? i = some shi)
    (hcont : (decide (shi.vertexData.length ≥ 3)
        && isPointInPolygonV ((mx - canvasW / 2) / interactionR s)
          ((my - canvasH / 2) / interactionR s) shi.vertexData) = true)
    (hmin : ∀ j shj, j < i → s.shapes.get? j = some shj →
        (decide (shj.vertexData.length ≥ 3)
          && isPointInPolygonV ((mx - canvasW / 2) / interactionR s)
            ((my - canvasH / 2) / interactionR s) shj.vertexData) = false) :
    (mousePressed mx my shift s).selectedShapeIndex = (i : Int) := by
  have hhit : layerHitIdx s.shapes ((mx - canvasW / 2) / interactionR s)
      ((my - canvasH / 2) / interactionR s) = some i :=
    layerHitIdx_eq _ _ _ i shi hget hcont hmin
  have hmp : mousePressed mx my shift s =
      shapeClickAction (resetPress s) mx my ((mx - canvasW / 2) / interactionR s)
        ((my - canvasH / 2) / interactionR s) := by
    unfold mousePressed
    rw [hblock]
    simp only [Bool.false_eq_true, if_false, hadd, hhandle]
  rw [hmp]
  unfold shapeClickAction
  rw [resetPress_shapes, hhit]
  by_cases hci : (i : Int) = s.selectedShapeIndex
  · have hbeq : ((i : Int) == (resetPress s).selectedShapeIndex) = true := by
      simp [hci]
    simp [hbeq, hed, hci]
  · have hbeq : ((i : Int) == (resetPress s).selectedShapeIndex) = false := by
      simp [hci]
    simp [hbeq, hed, hci]

/-- Two overlapping triangles for the C6 witness; the canvas center lies
inside both. -/
def tri0 : Shape := ⟨[⟨-1, -1⟩, ⟨1, -1⟩, ⟨0, 1⟩], [1, 1, 1], [2, 2, 2], 1⟩

def tri1 : Shape := ⟨[⟨-1, 1⟩, ⟨1, 1⟩, ⟨0, -1⟩], [3, 3, 3], [4, 4, 4], 1⟩

def c6state : EditorState :=
  { shapes := [tri0, tri1], historyStack := [],
    selectedShapeIndex := -1, selectedVertexIndices := [],
    draggingVertex := false, draggingShape := false, addingVertexMode := false,
    dragOccurred := false, dragVertexStartX := 0, dragVertexStartY := 0,
    dragVertexInitialPositions := [], dragShapeStartX := 0, dragShapeStartY := 0,
    dragConstrainedAxis := none, currentShipKey := some blankKey,
    currentShipDef := none, baseDisplaySize := 350, maxDefinedShipSize := 50,
    shipDefs := [] }

/-- Witness for C6: layer 0 is listed before layer 1, both contain the
canvas-center click, and the click selects layer 0. -/
theorem c6_topmost_hit_witness :
    (mousePressed 300 225 false c6state).selectedShapeIndex = (0 : Int) :=
  c6_topmost_hit c6state 300 225 false 0 tri0
    (of_decide_eq_true (by with_unfolding_all rfl))
    (of_decide_eq_true (by with_unfolding_all rfl))
    (of_decide_eq_true (by with_unfolding_all rfl))
    (of_decide_eq_true (by with_unfolding_all rfl))
    rfl
    (of_decide_eq_true (by with_unfolding_all rfl))
    (fun j shj hj _ => absurd hj (Nat.not_lt_zero j))

/-! ## Frame lemmas: no handler writes the catalog -/

@[simp] theorem resetPress_shipDefs (s : EditorState) :
    (resetPress s).shipDefs = s.shipDefs := rfl

@[simp] theorem undoLastChange_shipDefs (s : EditorState) :
    (undoLastChange s).shipDefs = s.shipDefs := by
  unfold undoLastChange
  split
  · rfl
  · split <;> simp

@[simp] theorem addVertexPress_shipDefs (s : EditorState) (r a b c d : ℚ) :
    (addVertexPress s r a b c d).shipDefs = s.shipDefs := by
  simp only [addVertexPress]
  repeat' split
  all_goals simp

@[simp] theorem vertexHandleAction_shipDefs (s : EditorState) (sh : Bool) (a b : ℚ) (i : Nat) :
    (vertexHandleAction s sh a b i).shipDefs = s.shipDefs := by
  simp only [vertexHandleAction]
  repeat' split
  all_goals simp

@[simp] theorem shapeClickAction_shipDefs (s : EditorState) (a b c d : ℚ) :
    (shapeClickAction s a b c d).shipDefs = s.shipDefs := by
  simp only [shapeClickAction]
  repeat' split
  all_goals simp

@[simp] theorem mousePressed_shipDefs (mx my : ℚ) (sh : Bool) (s : EditorState) :
    (mousePressed mx my sh s).shipDefs = s.shipDefs := by
  simp only [mousePressed]
  repeat' split
  all_goals simp

@[simp] theorem dragVerticesMove_shipDefs (s : EditorState) (r a b : ℚ) (sh : Bool) :
    (dragVerticesMove s r a b sh).shipDefs = s.shipDefs := rfl

@[simp] theorem dragShapeMove_shipDefs (s : EditorState) (r a b c d : ℚ) (sh : Bool) :
    (dragShapeMove s r a b c d sh).shipDefs = s.shipDefs := rfl

@[simp] theorem mouseReleased_shipDefs (s : EditorState) :
    (mouseReleased s).shipDefs = s.shipDefs := rfl

@[simp] theorem dragOccurredUpdate_shipDefs (mx my : ℚ) (s : EditorState) :
    (dragOccurredUpdate mx my s).shipDefs = s.shipDefs := by
  unfold dragOccurredUpdate
  repeat' split
  all_goals rfl

@[simp] theorem mouseDraggedCore_shipDefs (mx my pmx pmy : ℚ) (sh : Bool) (s : EditorState) :
    (mouseDraggedCore mx my pmx pmy sh s).shipDefs = s.shipDefs := by
  unfold mouseDraggedCore
  repeat' split
  all_goals simp

@[simp] theorem mouseDragged_shipDefs (mx my pmx pmy : ℚ) (sh : Bool) (s : EditorState) :
    (mouseDragged mx my pmx pmy sh s).shipDefs = s.shipDefs := by
  unfold mouseDragged
  split
  · rfl
  · simp

@[simp] theorem deleteSelectedVertices_shipDefs (s : EditorState) :
    (deleteSelectedVertices s).shipDefs = s.shipDefs := by
  simp only [deleteSelectedVertices]
  repeat' split
  all_goals simp

@[simp] theorem keyPressed_shipDefs (code : Nat) (z sh ctrl : Bool) (s : EditorState) :
    (keyPressed code z sh ctrl s).shipDefs = s.shipDefs := by
  simp only [keyPressed]
  repeat' split
  all_goals simp

@[simp] theorem updateSelectedShapeFill_shipDefs (rgb : List ℚ) (s : EditorState) :
    (updateSelectedShapeFill rgb s).shipDefs = s.shipDefs := by
  simp only [updateSelectedShapeFill]
  repeat' split
  all_goals simp

@[simp] theorem updateSelectedShapeStroke_shipDefs (rgb : List ℚ) (s : EditorState) :
    (updateSelectedShapeStroke rgb s).shipDefs = s.shipDefs := by
  simp only [updateSelectedShapeStroke]
  repeat' split
  all_goals simp

@[simp] theorem updateSelectedShapeStrokeWeight_shipDefs (w : Option ℚ) (s : EditorState) :
    (updateSelectedShapeStrokeWeight w s).shipDefs = s.shipDefs := by
  simp only [updateSelectedShapeStrokeWeight]
  repeat' split
  all_goals simp

@[simp] theorem addNewShape_shipDefs (s : EditorState) :
    (addNewShape s).shipDefs = s.shipDefs := by
  simp only [addNewShape]
  repeat' split
  all_goals simp

@[simp] theorem handleStraightenClick_shipDefs (s : EditorState) :
    (handleStraightenClick s).shipDefs = s.shipDefs := by
  simp only [handleStraightenClick]
  repeat' split
  all_goals simp

@[simp] theorem runDrags_shipDefs (l : List DragEv) (s : EditorState) :
    (runDrags l s).shipDefs = s.shipDefs := by
  induction l generalizing s with
  | nil => rfl
  | cons d t ih =>
    unfold runDrags at ih ⊢
    rw [List.foldl_cons]
    rw [ih]
    simp

theorem applyOp_shipDefs (op : MutatingOp) (s : EditorState) :
    (applyOp op s).shipDefs = s.shipDefs := by
  cases op <;> simp [applyOp]

theorem applyOps_shipDefs (ops : List MutatingOp) (s : EditorState) :
    (applyOps ops s).shipDefs = s.shipDefs := by
  induction ops generalizing s with
  | nil => rfl
  | cons op t ih =>
    unfold applyOps at ih ⊢
    rw [List.foldl_cons, ih, applyOp_shipDefs]

@[simp] theorem handleShipSelection_shipDefs (k : String) (s : EditorState) :
    (handleShipSelection k s).shipDefs = s.shipDefs := by
  simp only [handleShipSelection]
  repeat' split
  all_goals simp

/-! ## C9: Base Definition isolation -/

/-- C9 (confirmed): selecting a catalog Base Definition with editable
vertex data loads exactly one fresh layer holding a copy of the
definition's `vertexData`, colors (with defaults) and `strokeW || 1`
(value semantics model the source's JSON/spread deep copies), and no
subsequent sequence of mutating editor operations ever writes the
catalog: the key still resolves to the unchanged original definition. -/
theorem c9_base_def_isolation (s : EditorState) (key : String) (d : ShipDef)
    (hlookup : lookupDef s.shipDefs key = some d)
    (hnotblank : (key == blankKey) = false)
    (hvd : d.vertexData.length > 0)
    (hnotth : ¬(key = "Thargoid" ∧ d.name = "Thargoid Interceptor")) :
    (handleShipSelection key s).shapes = [loadShapeFromDef d]
    ∧ ∀ ops : List MutatingOp,
        lookupDef (applyOps ops (handleShipSelection key s)).shipDefs key = some d := by
  constructor
  · simp only [handleShipSelection, hnotblank, Bool.false_eq_true, if_false, hlookup,
      updateUIControls_shapes]
    split
    · rfl
    · rename_i hfalse
      exfalso
      apply hfalse
      simp only [isThargoidSelected]
      simp [hvd]
      tauto
  · intro ops
    rw [applyOps_shipDefs, handleShipSelection_shipDefs]
    exact hlookup

/-- The `SHIP_DEFINITIONS.Sidewinder` catalog entry (src/index.html),
restricted to the fields the editor core reads. -/
def sidewinderDef : ShipDef :=
  ⟨"Sidewinder", 20,
   [⟨9/10, 0⟩, ⟨-7/10, 8/10⟩, ⟨-9/10, 0⟩, ⟨-7/10, -8/10⟩],
   some [180, 100, 20], some [220, 150, 50], some 1⟩

def c9state : EditorState :=
  { shapes := [], historyStack := [],
    selectedShapeIndex := -1, selectedVertexIndices := [],
    draggingVertex := false, draggingShape := false, addingVertexMode := false,
    dragOccurred := false, dragVertexStartX := 0, dragVertexStartY := 0,
    dragVertexInitialPositions := [], dragShapeStartX := 0, dragShapeStartY := 0,
    dragConstrainedAxis := none, currentShipKey := none,
    currentShipDef := none, baseDisplaySize := 350, maxDefinedShipSize := 120,
    shipDefs := [("Sidewinder", sidewinderDef)] }

/-- Witness for C9: loading the Sidewinder and then straightening the
loaded layer leaves the catalog definition intact. -/
theorem c9_base_def_isolation_witness :
    (handleShipSelection "Sidewinder" c9state).shapes = [loadShapeFromDef sidewinderDef]
    ∧ lookupDef (applyOps [MutatingOp.straightenOp]
        (handleShipSelection "Sidewinder" c9state)).shipDefs "Sidewinder" =
      some sidewinderDef := by
  have h := c9_base_def_isolation c9state "Sidewinder" sidewinderDef rfl rfl
    (by decide) (by intro hand; exact absurd hand.1 (by decide))
  exact ⟨h.1, h.2 [MutatingOp.straightenOp]⟩

/-! ## C4: history bound -/

/-- One mutating operation as the History Manager sees it: a snapshot
(`saveStateForUndo`, called before every mutation) followed by the
mutation's effect on the shape set; a run is a fold of such steps. -/
def snapshotRun (pres : List (List Shape)) (s : EditorState) : EditorState :=
  pres.foldl (fun st shs => {saveStateForUndo st with shapes := shs}) s

theorem pushHistory_eq_take (e : HistEntry) (hs : List HistEntry)
    (hlen : hs.length ≤ maxHistorySize) :
    pushHistory e hs = (e :: hs).take maxHistorySize := by
  simp only [pushHistory]
  split
  · rename_i hgt
    rw [List.dropLast_eq_take]
    congr 1
    simp only [List.length_cons] at hgt ⊢
    omega
  · rename_i hle
    rw [List.take_of_length_le]
    simp only [List.length_cons] at hle ⊢
    omega

theorem saveStateForUndo_stack_take (s : EditorState)
    (hv : validLiveShapes s.shapes = true)
    (hlen : s.historyStack.length ≤ maxHistorySize) :
    (saveStateForUndo s).historyStack =
      (mkEntry s.shapes :: s.historyStack).take maxHistorySize := by
  rw [saveStateForUndo_historyStack_valid s hv, pushHistory_eq_take _ _ hlen]

theorem saveStateForUndo_stack_le (s : EditorState)
    (hlen : s.historyStack.length ≤ maxHistorySize) :
    (saveStateForUndo s).historyStack.length ≤ maxHistorySize := by
  unfold saveStateForUndo
  split
  · simp only [updateUIControls_historyStack, pushHistory]
    split
    · simp only [List.length_dropLast, List.length_cons]
      omega
    · rename_i hle
      simp only [List.length_cons] at hle ⊢
      omega
  · exact hlen

theorem take_append_take {α : Type} (xs ys : List α) (n : Nat) :
    (xs ++ ys.take n).take n = (xs ++ ys).take n := by
  rw [List.take_append_eq_append_take, List.take_append_eq_append_take, List.take_take]
  congr 1
  congr 1
  omega

theorem snapshotRun_stack (pres : List (List Shape)) : ∀ (s : EditorState),
    validLiveShapes s.shapes = true → (∀ p ∈ pres, validLiveShapes p = true) →
    s.historyStack.length ≤ maxHistorySize →
    (snapshotRun pres s).historyStack =
      ((s.shapes :: pres).dropLast.reverse.map mkEntry ++ s.historyStack).take
        maxHistorySize := by
  induction pres with
  | nil =>
    intro s hv _ hlen
    simp only [snapshotRun, List.foldl_nil, List.dropLast_single, List.reverse_nil,
      List.map_nil, List.nil_append]
    rw [List.take_of_length_le hlen]
  | cons p ps ih =>
    intro s hv hvp hlen
    have hstep : snapshotRun (p :: ps) s =
        snapshotRun ps {saveStateForUndo s with shapes := p} := by
      simp [snapshotRun]
    rw [hstep]
    have hs1v : validLiveShapes ({saveStateForUndo s with shapes := p}).shapes = true :=
      hvp p (List.mem_cons_self p ps)
    have hs1len : ({saveStateForUndo s with shapes := p}).historyStack.length
        ≤ maxHistorySize := saveStateForUndo_stack_le s hlen
    rw [ih _ hs1v (fun q hq => hvp q (List.mem_cons_of_mem p hq)) hs1len]
    have hs1stack : ({saveStateForUndo s with shapes := p}).historyStack =
        (mkEntry s.shapes :: s.historyStack).take maxHistorySize :=
      saveStateForUndo_stack_take s hv hlen
    rw [hs1stack]
    rw [take_append_take]
    congr 1
    show (p :: ps).dropLast.reverse.map mkEntry ++ mkEntry s.shapes :: s.historyStack =
      (s.shapes :: p :: ps).dropLast.reverse.map mkEntry ++ s.historyStack
    have hdl : (s.shapes :: p :: ps).dropLast = s.shapes :: (p :: ps).dropLast := rfl
    rw [hdl, List.reverse_cons, List.map_append]
    simp

theorem undoLastChange_stack_subset (t : EditorState) (e : HistEntry)
    (he : e ∈ (undoLastChange t).historyStack) : e ∈ t.historyStack := by
  unfold undoLastChange at he
  cases hstack : t.historyStack with
  | nil =>
    rw [hstack] at he
    rw [← hstack]
    exact he
  | cons f rest =>
    rw [hstack] at he
    by_cases hv : validEntry f
    · simp only [hv, if_true, updateUIControls_historyStack] at he
      exact List.mem_cons_of_mem f he
    · simp [hv] at he

theorem undoLastChange_shapes_cases (t : EditorState) :
    (undoLastChange t).shapes = t.shapes
    ∨ ∃ e ∈ t.historyStack, (undoLastChange t).shapes = entryShapes e := by
  unfold undoLastChange
  cases hstack : t.historyStack with
  | nil =>
    left
    rfl
  | cons f rest =>
    by_cases hv : validEntry f
    · right
      refine ⟨f, List.mem_cons_self f rest, ?_⟩
      simp [hv]
    · left
      simp [hv]

theorem undoIter_shapes (n : Nat) : ∀ (t : EditorState),
    (undoLastChange^[n] t).shapes = t.shapes
    ∨ ∃ e ∈ t.historyStack, (undoLastChange^[n] t).shapes = entryShapes e := by
  induction n with
  | zero => intro t; left; rfl
  | succ n ih =>
    intro t
    rw [Function.iterate_succ_apply]
    rcases ih (undoLastChange t) with h | ⟨e, he, hsh⟩
    · rw [h]
      rcases undoLastChange_shapes_cases t with h2 | ⟨e, he, hsh⟩
      · left; exact h2
      · right; exact ⟨e, he, hsh⟩
    · right
      exact ⟨e, undoLastChange_stack_subset t e he, hsh⟩

/-- C4 (confirmed): a successful snapshot never grows the stack beyond
`maxHistorySize`; after `maxHistorySize + 5` successful mutating
operations starting from an empty history, the stack holds exactly
`maxHistorySize` entries — precisely the snapshots of the 30 most recent
pre-states (newest first) — and every state reachable by any sequence of
restores has as its shape set either the current one or one of those kept
30 pre-states, so the 5 oldest snapshots are unreachable. -/
theorem c4_history_bound (s : EditorState) (pres : List (List Shape))
    (hstack : s.historyStack = [])
    (hlen : pres.length = maxHistorySize + 5)
    (hv : validLiveShapes s.shapes = true)
    (hvp : ∀ p ∈ pres, validLiveShapes p = true) :
    (∀ t : EditorState, t.historyStack.length ≤ maxHistorySize →
        (saveStateForUndo t).historyStack.length ≤ maxHistorySize)
    ∧ (snapshotRun pres s).historyStack =
        ((s.shapes :: pres).dropLast.drop 5).reverse.map mkEntry
    ∧ (snapshotRun pres s).historyStack.length = maxHistorySize
    ∧ ∀ n : Nat,
        (undoLastChange^[n] (snapshotRun pres s)).shapes = (snapshotRun pres s).shapes
        ∨ (undoLastChange^[n] (snapshotRun pres s)).shapes ∈
            (s.shapes :: pres).dropLast.drop 5 := by
  have hXlen : (s.shapes :: pres).dropLast.length = maxHistorySize + 5 := by
    simp [List.length_dropLast, hlen]
  have hmain : (snapshotRun pres s).historyStack =
      ((s.shapes :: pres).dropLast.drop 5).reverse.map mkEntry := by
    rw [snapshotRun_stack pres s hv hvp (by rw [hstack]; exact Nat.zero_le _)]
    rw [hstack, List.append_nil]
    rw [← List.map_take, List.take_reverse, hXlen]
    norm_num [maxHistorySize]
  refine ⟨fun t ht => saveStateForUndo_stack_le t ht, hmain, ?_, ?_⟩
  · rw [hmain]
    simp only [List.length_map, List.length_reverse, List.length_drop, hXlen]
    omega
  · intro n
    rcases undoIter_shapes n (snapshotRun pres s) with h | ⟨e, he, hsh⟩
    · left; exact h
    · right
      rw [hmain] at he
      obtain ⟨p, hp, rfl⟩ := List.mem_map.mp he
      rw [hsh, entryShapes_mkEntry]
      exact List.mem_reverse.mp hp

/-- The 35 shape-set values written by the witness run. -/
def c4pres : List (List Shape) := List.replicate 35 [diamondShape]

/-- Witness for C4: 35 successful snapshot-guarded mutations from an
empty history leave exactly 30 stack entries. -/
theorem c4_history_bound_witness :
    (diamondState.historyStack = [] ∧ c4pres.length = maxHistorySize + 5
      ∧ validLiveShapes diamondState.shapes = true)
    ∧ (snapshotRun c4pres diamondState).historyStack.length = maxHistorySize := by
  have hvp : ∀ p ∈ c4pres, validLiveShapes p = true := by
    intro p hp
    rw [List.eq_of_mem_replicate hp]
    rfl
  exact ⟨⟨rfl, rfl, rfl⟩,
    (c4_history_bound diamondState c4pres rfl rfl rfl hvp).2.2.1⟩

/-! ## C1: undo round-trip -/

@[simp] theorem dragVerticesMove_historyStack (s : EditorState) (r a b : ℚ) (sh : Bool) :
    (dragVerticesMove s r a b sh).historyStack = s.historyStack := rfl

@[simp] theorem dragShapeMove_historyStack (s : EditorState) (r a b c d : ℚ) (sh : Bool) :
    (dragShapeMove s r a b c d sh).historyStack = s.historyStack := rfl

@[simp] theorem mouseReleased_historyStack (s : EditorState) :
    (mouseReleased s).historyStack = s.historyStack := rfl

@[simp] theorem dragOccurredUpdate_historyStack (mx my : ℚ) (s : EditorState) :
    (dragOccurredUpdate mx my s).historyStack = s.historyStack := by
  unfold dragOccurredUpdate
  repeat' split
  all_goals rfl

@[simp] theorem mouseDraggedCore_historyStack (mx my pmx pmy : ℚ) (sh : Bool)
    (s : EditorState) :
    (mouseDraggedCore mx my pmx pmy sh s).historyStack = s.historyStack := by
  unfold mouseDraggedCore
  repeat' split
  all_goals simp

@[simp] theorem mouseDragged_historyStack (mx my pmx pmy : ℚ) (sh : Bool) (s : EditorState) :
    (mouseDragged mx my pmx pmy sh s).historyStack = s.historyStack := by
  unfold mouseDragged
  split
  · rfl
  · simp

@[simp] theorem runDrags_historyStack (l : List DragEv) (s : EditorState) :
    (runDrags l s).historyStack = s.historyStack := by
  induction l generalizing s with
  | nil => rfl
  | cons d t ih =>
    unfold runDrags at ih ⊢
    rw [List.foldl_cons, ih]
    simp

theorem mousePressed_vertexDrag_stack (s : EditorState) (mx my : ℚ) (i : Nat)
    (hv : validLiveShapes s.shapes = true)
    (hblock : pressBlocked mx my s = false)
    (hadd : addModeConsumes (resetPress s) (interactionR s) = false)
    (hhandle : clickedVertexHandleIdx (resetPress s) (interactionR s)
      (mx - canvasW / 2) (my - canvasH / 2) = some i) :
    ∃ rest, (mousePressed mx my false s).historyStack = mkEntry s.shapes :: rest := by
  have hmp : mousePressed mx my false s =
      vertexHandleAction (resetPress s) false (mx - canvasW / 2) (my - canvasH / 2) i := by
    unfold mousePressed
    rw [hblock]
    simp only [Bool.false_eq_true, if_false, hadd, hhandle]
  rw [hmp]
  unfold vertexHandleAction
  simp only [Bool.false_eq_true, if_false, updateUIControls_historyStack]
  exact saveStateForUndo_stack_top _ hv

theorem mousePressed_shapeDrag_stack (s : EditorState) (mx my : ℚ) (ci : Nat)
    (hv : validLiveShapes s.shapes = true)
    (hblock : pressBlocked mx my s = false)
    (hadd : addModeConsumes (resetPress s) (interactionR s) = false)
    (hhandle : clickedVertexHandleIdx (resetPress s) (interactionR s)
      (mx - canvasW / 2) (my - canvasH / 2) = none)
    (hhit : layerHitIdx s.shapes ((mx - canvasW / 2) / interactionR s)
      ((my - canvasH / 2) / interactionR s) = some ci)
    (hci : (ci : Int) = s.selectedShapeIndex)
    (hed : isEditable s = true) :
    ∃ rest, (mousePressed mx my false s).historyStack = mkEntry s.shapes :: rest := by
  have hmp : mousePressed mx my false s =
      shapeClickAction (resetPress s) mx my ((mx - canvasW / 2) / interactionR s)
        ((my - canvasH / 2) / interactionR s) := by
    unfold mousePressed
    rw [hblock]
    simp only [Bool.false_eq_true, if_false, hadd, hhandle]
  rw [hmp]
  unfold shapeClickAction
  rw [resetPress_shapes, hhit]
  have hcond : ((ci : Int) == (resetPress s).selectedShapeIndex
      && isEditable (resetPress s)) = true := by
    simp [hci, hed]
  simp only [hcond, if_true, updateUIControls_historyStack]
  exact saveStateForUndo_stack_top _ hv

theorem mousePressed_insert_stack (s : EditorState) (mx my : ℚ)
    (hv : validLiveShapes s.shapes = true)
    (hblock : pressBlocked mx my s = false)
    (hadd : addModeConsumes (resetPress s) (interactionR s) = true)
    (htgt : (addVertexTarget (resetPress s) (interactionR s) (mx - canvasW / 2)
        (my - canvasH / 2) ((mx - canvasW / 2) / interactionR s)
        ((my - canvasH / 2) / interactionR s)).isSome = true) :
    ∃ rest, (mousePressed mx my false s).historyStack = mkEntry s.shapes :: rest := by
  obtain ⟨⟨sh, ei⟩, htgt'⟩ := Option.isSome_iff_exists.mp htgt
  have hmp : mousePressed mx my false s =
      addVertexPress (resetPress s) (interactionR s) (mx - canvasW / 2) (my - canvasH / 2)
        ((mx - canvasW / 2) / interactionR s) ((my - canvasH / 2) / interactionR s) := by
    unfold mousePressed
    rw [hblock]
    simp only [Bool.false_eq_true, if_false, hadd, if_true]
  rw [hmp]
  unfold addVertexPress
  rw [htgt']
  simp only [updateUIControls_historyStack]
  exact saveStateForUndo_stack_top _ hv

theorem keyPressed_deleteVertices_stack (s : EditorState) (code : Nat) (sh : Shape)
    (hv : validLiveShapes s.shapes = true)
    (hth : isThargoidSelected s = false)
    (hcode : code = keyDelete ∨ code = keyBackspace)
    (hsel : s.selectedShapeIndex ≠ -1)
    (hnonempty : s.selectedVertexIndices ≠ [])
    (hed : isEditable s = true)
    (hsh : shapeAt s.shapes s.selectedShapeIndex = some sh)
    (hrem : (sh.vertexData.length : Int) - (s.selectedVertexIndices.length : Int) ≥ 3) :
    ∃ rest, (keyPressed code false false false s).historyStack = mkEntry s.shapes :: rest := by
  have hlen : 0 < s.selectedVertexIndices.length := List.length_pos.mpr hnonempty
  have hguard : ((code == keyDelete || code == keyBackspace) && !false
      && decide (s.selectedShapeIndex ≠ -1) && decide (s.selectedVertexIndices.length > 0)
      && isEditable s) = true := by
    rcases hcode with rfl | rfl <;> simp [hsel, hlen, hed]
  unfold keyPressed
  rw [hth]
  simp only [Bool.false_eq_true, if_false, hguard, if_true]
  unfold deleteSelectedVertices
  rw [hsh]
  simp only [hrem, if_true]
  exact saveStateForUndo_stack_top _ hv

theorem keyPressed_deleteLayer_stack (s : EditorState) (code : Nat)
    (hv : validLiveShapes s.shapes = true)
    (hth : isThargoidSelected s = false)
    (hcode : code = keyDelete ∨ code = keyBackspace)
    (hsel : s.selectedShapeIndex ≠ -1)
    (hed : isEditable s = true)
    (hbound : (s.shapes.length : Int) > s.selectedShapeIndex ∧ s.selectedShapeIndex ≥ 0) :
    ∃ rest, (keyPressed code false true false s).historyStack = mkEntry s.shapes :: rest := by
  have hguard2 : ((code == keyDelete || code == keyBackspace) && true
      && decide (s.selectedShapeIndex ≠ -1) && isEditable s) = true := by
    rcases hcode with rfl | rfl <;> simp [hsel, hed]
  have hb1 : decide ((s.shapes.length : Int) > s.selectedShapeIndex) = true := by
    simp [hbound.1]
  have hb2 : decide (s.selectedShapeIndex ≥ 0) = true := by
    simp [hbound.2]
  unfold keyPressed
  rw [hth]
  simp only [Bool.false_eq_true, if_false, Bool.not_true, Bool.and_false, Bool.false_and]
  rw [hguard2]
  simp only [if_true]
  rw [hb1, hb2]
  simp only [Bool.and_self, if_true, updateUIControls_historyStack]
  exact saveStateForUndo_stack_top _ hv

theorem addNewShape_stack (s : EditorState)
    (hv : validLiveShapes s.shapes = true)
    (hen : isEditable s = true ∨ s.currentShipKey = some blankKey) :
    ∃ rest, (addNewShape s).historyStack = mkEntry s.shapes :: rest := by
  have hguard : (!(isEditable s) && !(s.currentShipKey == some blankKey)) = false := by
    rcases hen with h | h <;> simp [h]
  unfold addNewShape
  rw [hguard]
  simp only [Bool.false_eq_true, if_false, updateUIControls_historyStack]
  split
  · exact saveStateForUndo_stack_top _ hv
  · exact saveStateForUndo_stack_top _ hv

theorem instantAction_stack (s : EditorState)
    (hv : validLiveShapes s.shapes = true)
    (hsel : s.selectedShapeIndex ≠ -1)
    (hsome : (shapeAt s.shapes s.selectedShapeIndex).isSome = true)
    (hed : isEditable s = true) :
    ((∀ rgb, ∃ rest, (updateSelectedShapeFill rgb s).historyStack = mkEntry s.shapes :: rest)
    ∧ (∀ rgb, ∃ rest, (updateSelectedShapeStroke rgb s).historyStack = mkEntry s.shapes :: rest)
    ∧ (∀ w, ∃ rest,
        (updateSelectedShapeStrokeWeight w s).historyStack = mkEntry s.shapes :: rest)
    ∧ ∃ rest, (handleStraightenClick s).historyStack = mkEntry s.shapes :: rest) := by
  have hguard : (decide (s.selectedShapeIndex ≠ -1)
      && (shapeAt s.shapes s.selectedShapeIndex).isSome && isEditable s) = true := by
    simp [hsel, hsome, hed]
  have hguard2 : (decide (s.selectedShapeIndex ≠ -1) && isEditable s
      && (shapeAt s.shapes s.selectedShapeIndex).isSome) = true := by
    simp [hsel, hsome, hed]
  refine ⟨?_, ?_, ?_, ?_⟩
  · intro rgb
    unfold updateSelectedShapeFill
    rw [hguard]
    simp only [if_true]
    exact saveStateForUndo_stack_top _ hv
  · intro rgb
    unfold updateSelectedShapeStroke
    rw [hguard]
    simp only [if_true]
    exact saveStateForUndo_stack_top _ hv
  · intro w
    unfold updateSelectedShapeStrokeWeight
    rw [hguard]
    simp only [if_true]
    exact saveStateForUndo_stack_top _ hv
  · unfold handleStraightenClick
    rw [hguard2]
    simp only [if_true]
    exact saveStateForUndo_stack_top _ hv

/-- C1 (confirmed): every mutating operation on the shape set — vertex
drag, layer drag, vertex insertion, vertex deletion, layer deletion,
layer addition, recolor (fill or stroke), restroke, straighten — pushes a
deep snapshot of the shape set before its mutation (at press time for
drags), and `undoLastChange` immediately after any single such enabled
operation returns the shape set to a state deep-equal (here: equal) to
the pre-operation state. -/
theorem c1_undo_round_trip (op : MutatingOp) (s : EditorState)
    (hv : validLiveShapes s.shapes = true) (he : opEnabled op s) :
    (undoLastChange (applyOp op s)).shapes = s.shapes := by
  have hstack : ∃ rest, (applyOp op s).historyStack = mkEntry s.shapes :: rest := by
    cases op with
    | vertexDragOp mx my drags =>
      obtain ⟨h1, h2, h3⟩ := he
      obtain ⟨i, hi⟩ := Option.isSome_iff_exists.mp h3
      obtain ⟨rest, hr⟩ := mousePressed_vertexDrag_stack s mx my i hv h1 h2 hi
      refine ⟨rest, ?_⟩
      simp only [applyOp, mouseReleased_historyStack, runDrags_historyStack, hr]
    | layerDragOp mx my drags =>
      obtain ⟨h1, h2, h3, ⟨ci, hci1, hci2⟩, h5⟩ := he
      obtain ⟨rest, hr⟩ := mousePressed_shapeDrag_stack s mx my ci hv h1 h2 h3 hci1 hci2 h5
      refine ⟨rest, ?_⟩
      simp only [applyOp, mouseReleased_historyStack, runDrags_historyStack, hr]
    | insertVertexOp mx my =>
      obtain ⟨h1, h2, h3⟩ := he
      exact mousePressed_insert_stack s mx my hv h1 h2 h3
    | deleteVerticesOp code =>
      obtain ⟨h1, h2, h3, h4, h5, ⟨sh, hsh, hrem⟩⟩ := he
      exact keyPressed_deleteVertices_stack s code sh hv h1 h2 h3 h4 h5 hsh hrem
    | deleteLayerOp code =>
      obtain ⟨h1, h2, h3, h4, h5, h6⟩ := he
      exact keyPressed_deleteLayer_stack s code hv h1 h2 h3 h4 ⟨h5, h6⟩
    | addLayerOp =>
      exact addNewShape_stack s hv he
    | recolorFillOp rgb =>
      obtain ⟨h1, h2, h3⟩ := he
      exact (instantAction_stack s hv h1 h2 h3).1 rgb
    | recolorStrokeOp rgb =>
      obtain ⟨h1, h2, h3⟩ := he
      exact (instantAction_stack s hv h1 h2 h3).2.1 rgb
    | restrokeOp w =>
      obtain ⟨h1, h2, h3⟩ := he
      exact (instantAction_stack s hv h1 h2 h3).2.2.1 w
    | straightenOp =>
      obtain ⟨h1, h2, h3⟩ := he
      exact (instantAction_stack s hv h1 h3 h2).2.2.2
  obtain ⟨rest, hr⟩ := hstack
  exact undo_restores_top (applyOp op s) s.shapes rest hr hv

/-- Witness for C1: straightening the selected diamond layer, then a
vertex drag of vertex 1 by 25px, each followed by one undo, both restore
the pre-operation shape set. -/
theorem c1_undo_round_trip_witness :
    (validLiveShapes diamondState.shapes = true ∧ opEnabled MutatingOp.straightenOp diamondState)
    ∧ (undoLastChange (applyOp MutatingOp.straightenOp diamondState)).shapes =
        diamondState.shapes
    ∧ (undoLastChange (applyOp
        (MutatingOp.vertexDragOp 475 225 [⟨500, 250, 475, 225, false⟩])
        diamondState)).shapes = diamondState.shapes := by
  have he1 : opEnabled MutatingOp.straightenOp diamondState :=
    ⟨of_decide_eq_true (by with_unfolding_all rfl),
     of_decide_eq_true (by with_unfolding_all rfl), rfl⟩
  have he2 : opEnabled (MutatingOp.vertexDragOp 475 225 [⟨500, 250, 475, 225, false⟩])
      diamondState :=
    ⟨of_decide_eq_true (by with_unfolding_all rfl),
     of_decide_eq_true (by with_unfolding_all rfl),
     of_decide_eq_true (by with_unfolding_all rfl)⟩
  exact ⟨⟨rfl, he1⟩,
    c1_undo_round_trip MutatingOp.straightenOp diamondState rfl he1,
    c1_undo_round_trip _ diamondState rfl he2⟩

end EliteEditor
